import Mathlib

/-!
Verification of the wikitext section-tree parser and normalization pipeline of
the wikipedia-census repository.  The Python sources under src/parser/ and
src/county/ are shallowly embedded here: strings are processed as lists of
characters, the regular expressions of the source are compiled by hand into
deterministic scanners that follow the backtracking behaviour of Python's re
module, and in-place mutation is modelled by explicit state passing.
-/

namespace WikiCensus

/-- Characters Python's str.strip() and the re module's whitespace class treat
as whitespace (ASCII whitespace, the C1 separators, NEL, NBSP and the common
Unicode spaces). -/
def pyIsSpace (c : Char) : Bool :=
  c == ' ' || c == '\t' || c == '\n' || c == '\r' || c == '\x0b' || c == '\x0c' ||
  (0x1c ≤ c.val && c.val ≤ 0x1f) || c == '\x85' || c == ' ' || c == ' ' ||
  (0x2000 ≤ c.val && c.val ≤ 0x200a) || c == ' ' || c == ' ' ||
  c == ' ' || c == ' ' || c == '　'

/-- The opening brace character (written by code point throughout). -/
def lb : Char := '\x7b'

/-- The closing brace character. -/
def rb : Char := '\x7d'

/-- str.lstrip() on a character list. -/
def lstripWS (l : List Char) : List Char := l.dropWhile pyIsSpace

/-- str.rstrip() on a character list. -/
def rstripWS (l : List Char) : List Char := (l.reverse.dropWhile pyIsSpace).reverse

/-- str.strip() on a character list. -/
def stripWS (l : List Char) : List Char := lstripWS (rstripWS l)

/-- str.lstrip(ch) for a single character. -/
def lstripChar (c : Char) (l : List Char) : List Char := l.dropWhile (fun d => d == c)

/-- str.rstrip(ch) for a single character. -/
def rstripChar (c : Char) (l : List Char) : List Char :=
  (l.reverse.dropWhile (fun d => d == c)).reverse

/-- Line-break characters recognised by Python's str.splitlines. -/
def isLineBreak (c : Char) : Bool :=
  c == '\n' || c == '\r' || c == '\x0b' || c == '\x0c' || c == '\x1c' ||
  c == '\x1d' || c == '\x1e' || c == '\x85' || c == ' ' || c == ' '

/-- Worker for str.splitlines(keepends=True): cur holds the current line in
reverse. -/
def splitLinesAux (cur : List Char) : List Char → List (List Char)
  | [] => if cur.isEmpty then [] else [cur.reverse]
  | '\r' :: '\n' :: rest => (cur.reverse ++ ['\r', '\n']) :: splitLinesAux [] rest
  | c :: rest =>
      if isLineBreak c then (cur.reverse ++ [c]) :: splitLinesAux [] rest
      else splitLinesAux (c :: cur) rest

/-- Python str.splitlines(keepends=True). -/
def splitLinesKE (l : List Char) : List (List Char) := splitLinesAux [] l

/-- Does the character-list suffix of length k consist only of '='? -/
def endsWithEquals (l : List Char) (k : Nat) : Bool :=
  k ≤ l.length && ((l.reverse.take k).all (fun c => c == '='))

/-- Backtracking loop of the heading regex r"^(=+)\s*(.*?)\s*\1\s*$" on the
stripped line s: the greedy (=+) group tries k = leading run, k-1, ..., 1 and
succeeds on the first k for which the remainder ends in k further '='
characters; the captured title is the middle with surrounding whitespace
stripped. -/
def headingTry (s : List Char) : Nat → Option (Nat × List Char)
  | 0 => none
  | Nat.succ k =>
      let rest := s.drop (k + 1)
      if endsWithEquals rest (k + 1) then
        some (k + 1, stripWS (rest.take (rest.length - (k + 1))))
      else headingTry s k

/-- Matches the heading pattern of _parse_wikitext against a stripped line,
returning (marker length, stripped title). -/
def headingMatch (s : List Char) : Option (Nat × List Char) :=
  let run := (s.takeWhile (fun c => c == '=')).length
  if run == 0 then none else headingTry s run

/-- The nested section structure of the Python parser: a tuple
(heading, content-string) is a leaf, (heading, child-list) a node. -/
inductive Sect where
  | leaf (title text : String) : Sect
  | node (title : String) (children : List Sect) : Sect

/-- Title of a parsed entry (entry[0] in Python). -/
def sectTitle : Sect → String
  | .leaf t _ => t
  | .node t _ => t

/-- The child list of an entry when its second component is a list. -/
def childrenOpt : Sect → Option (List Sect)
  | .leaf _ _ => none
  | .node _ ch => some ch

/-- The mutable Section objects built during parsing (title, accumulated
content, completed children in order). -/
inductive PSec where
  | mk (title content : String) (children : List PSec) : PSec

def PSec.title : PSec → String | .mk t _ _ => t

def PSec.content : PSec → String | .mk _ c _ => c

def PSec.children : PSec → List PSec | .mk _ _ ch => ch

/-- A frame of the parser's stack of open sections.  Children complete and
attach when the frame is popped, which matches the Python code where child
Section objects are appended at push time and mutated until popped. -/
structure Frame where
  title : String
  level : Nat
  content : String
  children : List PSec

/-- The root stack frame of _parse_wikitext. -/
def rootFrame : Frame := { title := "__root__", level := 1, content := "", children := [] }

/-- Completes a frame into an immutable section. -/
def toPSec (f : Frame) : PSec := PSec.mk f.title f.content f.children

/-- Popping frame f attaches its completed section to the frame below. -/
def absorb (g f : Frame) : Frame := { g with children := g.children ++ [toPSec f] }

/-- Worker for the pop loop: f is the current stack top, the list the frames
below it.  While the top's level is at least lvl, the top is popped and its
completed section absorbed into the frame below. -/
def popGo (lvl : Nat) (f : Frame) : List Frame → List Frame
  | [] => [f]
  | g :: rest => if lvl ≤ f.level then popGo lvl (absorb g f) rest else f :: g :: rest

/-- The pop loop "while stack and stack[-1].level >= normalized_level".  The
root (level 1) is never popped by the parser since normalized levels are at
least 2. -/
def popWhile (lvl : Nat) : List Frame → List Frame
  | [] => []
  | f :: rest => popGo lvl f rest

/-- Top frame of the stack (the stack is never empty while parsing). -/
def topLevel (st : List Frame) : Nat :=
  match st with
  | f :: _ => f.level
  | [] => 1

/-- Appends a non-heading line to the current section's content (the Python
code batches lines in pending_lines and flushes them before each heading;
flattening the buffer appends each line directly, with the same result). -/
def addContent (st : List Frame) (line : List Char) : List Frame :=
  match st with
  | f :: rest => { f with content := f.content ++ String.mk line } :: rest
  | [] => []

/-- One iteration of the line loop of _parse_wikitext. -/
def stepLine (st : List Frame) (line : List Char) : List Frame :=
  match headingMatch (stripWS line) with
  | none => addContent st line
  | some (rawLevel, titleChars) =>
      let title := String.mk titleChars
      let n1 := if rawLevel == 1 then 2 else rawLevel
      let n2 := if n1 > 6 then 6 else n1
      let st1 := popWhile n2 st
      let parentLevel := topLevel st1
      let n3 := if n2 > parentLevel + 1 then parentLevel + 1 else n2
      let st2 := if n2 > parentLevel + 1 then popWhile n3 st1 else st1
      { title := title, level := n3, content := "", children := [] } :: st2

/-- Worker collapsing the stack at end of stream: each open frame is absorbed
into the frame below until only the root remains. -/
def collapseGo (f : Frame) : List Frame → Frame
  | [] => f
  | g :: rest => collapseGo (absorb g f) rest

/-- Collapses the remaining stack at end of stream into the root frame. -/
def collapseStack : List Frame → Frame
  | [] => rootFrame
  | f :: rest => collapseGo f rest

mutual

/-- section_to_nested of _parse_wikitext. -/
def toNested : PSec → Sect
  | .mk t c [] => Sect.leaf t c
  | .mk t c (k :: ks) =>
      Sect.node t
        ((if c ≠ "" then [Sect.leaf "__content__" c] else []) ++ toNestedList (k :: ks))

def toNestedList : List PSec → List Sect
  | [] => []
  | p :: ps => toNested p :: toNestedList ps

end

/-- _parse_wikitext: parse wikitext into nested tuples keyed by headings.  The
function is total: malformed headings are normalized (the Python code prints a
diagnostic and continues) and parsing never fails. -/
def parse_wikitext (w : String) : List Sect :=
  let lines := splitLinesKE w.data
  let root := collapseStack (lines.foldl stepLine [rootFrame])
  (if root.content ≠ "" then [Sect.leaf "__lead__" root.content] else []) ++
    toNestedList root.children

/-- Heading marker of k '=' characters. -/
def marker (k : Nat) : String := String.mk (List.replicate k '=')

mutual

/-- render of ParsedWikitext.to_wikitext.  A sentinel-titled entry emits its
raw content; other entries emit the heading line and recurse.  Python appends
a child LIST to parts when a sentinel-titled entry has children, which makes
the final "".join raise TypeError; that crash is modelled by none. -/
def renderOne (d : Nat) : Sect → Option String
  | .leaf t c =>
      if t == "__lead__" || t == "__content__" then some c
      else some (marker (d + 2) ++ t ++ marker (d + 2) ++ "\n" ++ c)
  | .node t ch =>
      if t == "__lead__" || t == "__content__" then
        if ch.isEmpty then some "" else none
      else
        match renderList (d + 1) ch with
        | some s => some (marker (d + 2) ++ t ++ marker (d + 2) ++ "\n" ++ s)
        | none => none

def renderList (d : Nat) : List Sect → Option String
  | [] => some ""
  | e :: rest =>
      match renderOne d e with
      | none => none
      | some s =>
          match renderList d rest with
          | none => none
          | some s' => some (s ++ s')

end

/-- ParsedWikitext.to_wikitext. -/
def to_wikitext (l : List Sect) : Option String := renderList 0 l

/-- The exception classes raised by the accessor: KeyError for a missing
heading, ValueError for the other failures. -/
inductive PErr where
  | keyError (msg : String) : PErr
  | valueError (msg : String) : PErr
deriving DecidableEq

/-- path_str = " > ".join(key_path). -/
def joinPath : List String → String
  | [] => ""
  | [h] => h
  | h :: t₁ :: t => h ++ " > " ++ joinPath (t₁ :: t)

/-- The inner search of _locate_section: first entry whose heading equals the
segment. -/
def findEntry (l : List Sect) (h : String) : Option Sect :=
  l.find? (fun e => sectTitle e == h)

/-- The segment loop of ParsedWikitext._locate_section.  The state mirrors the
Python variables: cur is current_sections (None once a leaf was entered), acc
is current_entry.  pstr is the precomputed path_str of the full key path. -/
def locLoop (pstr : String) : Option (List Sect) → List String → Option Sect →
    Except PErr Sect
  | _, [], some e => .ok e
  | _, [], none => .error (.valueError ("key_path must identify a section."))
  | none, _ :: _, _ =>
      .error (.valueError ("Section path " ++ pstr ++ " extends beyond available headings."))
  | some sibs, h :: t, _ =>
      match findEntry sibs h with
      | none => .error (.keyError ("Section path " ++ pstr ++ " not found."))
      | some e => locLoop pstr (childrenOpt e) t (some e)

/-- ParsedWikitext._locate_section, returning the final current_entry. -/
def locate_section (secs : List Sect) (path : List String) : Except PErr Sect :=
  if path.isEmpty then .error (.valueError ("key_path must identify a section."))
  else locLoop (joinPath path) (some secs) path none

/-- ParsedWikitext.get_section. -/
def get_section (secs : List Sect) (path : List String) : Except PErr String :=
  match locate_section secs path with
  | .error e => .error e
  | .ok (.node _ _) =>
      .error (.valueError ("Section path " ++ joinPath path ++ " refers to subsections, not content."))
  | .ok (.leaf _ txt) => .ok txt

/-- parent_sections[index] = (current_entry[0], new_text): replaces the first
entry carrying the matched heading (list.index uses equality, and the matched
entry is the first one with that heading). -/
def replaceFirstTitle (h : String) (e' : Sect) : List Sect → List Sect
  | [] => []
  | e :: rest =>
      if sectTitle e == h then e' :: rest else e :: replaceFirstTitle h e' rest

/-- ParsedWikitext.overwrite_section with the in-place mutation of the parent
sibling list modelled by rebuilding the tree along the traversed path.  The
traversal and its failures follow _locate_section segment by segment. -/
def owLoop (pstr new : String) : List Sect → List String → Except PErr (List Sect)
  | _, [] => .error (.valueError ("key_path must identify a section."))
  | sibs, [h] =>
      match findEntry sibs h with
      | none => .error (.keyError ("Section path " ++ pstr ++ " not found."))
      | some (.node _ _) =>
          .error (.valueError ("Section path " ++ pstr ++ " refers to subsections, not content."))
      | some (.leaf _ _) => .ok (replaceFirstTitle h (Sect.leaf h new) sibs)
  | sibs, h :: t₁ :: t =>
      match findEntry sibs h with
      | none => .error (.keyError ("Section path " ++ pstr ++ " not found."))
      | some (.leaf _ _) =>
          .error (.valueError ("Section path " ++ pstr ++ " extends beyond available headings."))
      | some (.node ht ch) =>
          match owLoop pstr new ch (t₁ :: t) with
          | .error e => .error e
          | .ok ch' => .ok (replaceFirstTitle h (Sect.node ht ch') sibs)

/-- ParsedWikitext.overwrite_section: the updated section list, or the raised
exception. -/
def overwrite_section (secs : List Sect) (path : List String) (new : String) :
    Except PErr (List Sect) :=
  if path.isEmpty then .error (.valueError ("key_path must identify a section."))
  else owLoop (joinPath path) new secs path

/-- The outcome classification of the spec's Section Path Accessor (section
4.3): walking the path segment by segment either misses a heading (NotFound),
ends on an interior node (InvalidOperation), ends on a leaf (its text), runs
past a leaf, or was empty. -/
inductive PathOutcome where
  | notFound : PathOutcome
  | invalidOp : PathOutcome
  | leafText (t : String) : PathOutcome
  | beyondLeaf : PathOutcome
  | emptyPath : PathOutcome
deriving DecidableEq

/-- Classifies a path against a section list, following the spec's walk. -/
def resolvePath : List Sect → List String → PathOutcome
  | _, [] => .emptyPath
  | sibs, [h] =>
      match findEntry sibs h with
      | none => .notFound
      | some (.leaf _ t) => .leafText t
      | some (.node _ _) => .invalidOp
  | sibs, h :: t₁ :: t =>
      match findEntry sibs h with
      | none => .notFound
      | some (.leaf _ _) => .beyondLeaf
      | some (.node _ ch) => resolvePath ch (t₁ :: t)

/-- The segment loop of _locate_section realizes the path classification: a
missing segment raises KeyError, a path ending on a leaf yields that entry, a
path ending on an interior node yields that node, and a path running past a
leaf raises the extends-beyond ValueError. -/
theorem locLoop_resolve :
    ∀ (path : List String) (sibs : List Sect) (pstr : String) (acc : Option Sect),
      (resolvePath sibs path = .notFound →
        locLoop pstr (some sibs) path acc =
          .error (.keyError ("Section path " ++ pstr ++ " not found."))) ∧
      (∀ t, resolvePath sibs path = .leafText t →
        ∃ n, locLoop pstr (some sibs) path acc = .ok (.leaf n t)) ∧
      (resolvePath sibs path = .invalidOp →
        ∃ n ch, locLoop pstr (some sibs) path acc = .ok (.node n ch)) ∧
      (resolvePath sibs path = .beyondLeaf →
        locLoop pstr (some sibs) path acc =
          .error (.valueError ("Section path " ++ pstr ++ " extends beyond available headings."))) := by
  intro path
  induction path with
  | nil =>
      intro sibs pstr acc
      refine ⟨?_, ?_, ?_, ?_⟩ <;> simp [resolvePath]
  | cons h tail ih =>
      intro sibs pstr acc
      cases tail with
      | nil =>
          cases hfind : findEntry sibs h with
          | none =>
              refine ⟨?_, ?_, ?_, ?_⟩ <;> intros <;>
                simp_all [resolvePath, locLoop, hfind]
          | some e =>
              cases e with
              | leaf n t =>
                  refine ⟨?_, ?_, ?_, ?_⟩ <;> intros <;>
                    simp_all [resolvePath, locLoop, hfind, childrenOpt]
              | node n ch =>
                  refine ⟨?_, ?_, ?_, ?_⟩ <;> intros <;>
                    simp_all [resolvePath, locLoop, hfind, childrenOpt]
      | cons t₁ t =>
          cases hfind : findEntry sibs h with
          | none =>
              refine ⟨?_, ?_, ?_, ?_⟩ <;> intros <;>
                simp_all [resolvePath, locLoop, hfind]
          | some e =>
              cases e with
              | leaf n tx =>
                  refine ⟨?_, ?_, ?_, ?_⟩ <;> intros <;>
                    simp_all [resolvePath, locLoop, hfind, childrenOpt]
              | node n ch =>
                  have := ih ch pstr (some (Sect.node n ch))
                  refine ⟨?_, ?_, ?_, ?_⟩ <;> intros <;>
                    simp_all [resolvePath, locLoop, hfind, childrenOpt]

/-- The recursive overwrite realizes the same classification, and succeeds on
a leaf. -/
theorem owLoop_resolve :
    ∀ (path : List String) (sibs : List Sect) (pstr new : String),
      (resolvePath sibs path = .notFound →
        owLoop pstr new sibs path =
          .error (.keyError ("Section path " ++ pstr ++ " not found."))) ∧
      (∀ t, resolvePath sibs path = .leafText t →
        ∃ out, owLoop pstr new sibs path = .ok out) ∧
      (resolvePath sibs path = .invalidOp →
        owLoop pstr new sibs path =
          .error (.valueError ("Section path " ++ pstr ++ " refers to subsections, not content."))) ∧
      (resolvePath sibs path = .beyondLeaf →
        owLoop pstr new sibs path =
          .error (.valueError ("Section path " ++ pstr ++ " extends beyond available headings."))) := by
  intro path
  induction path with
  | nil =>
      intro sibs pstr new
      refine ⟨?_, ?_, ?_, ?_⟩ <;> simp [resolvePath]
  | cons h tail ih =>
      intro sibs pstr new
      cases tail with
      | nil =>
          cases hfind : findEntry sibs h with
          | none =>
              refine ⟨?_, ?_, ?_, ?_⟩ <;> intros <;>
                simp_all [resolvePath, owLoop, hfind]
          | some e =>
              cases e with
              | leaf n t =>
                  refine ⟨?_, ?_, ?_, ?_⟩ <;> intros <;>
                    simp_all [resolvePath, owLoop, hfind]
              | node n ch =>
                  refine ⟨?_, ?_, ?_, ?_⟩ <;> intros <;>
                    simp_all [resolvePath, owLoop, hfind]
      | cons t₁ t =>
          cases hfind : findEntry sibs h with
          | none =>
              refine ⟨?_, ?_, ?_, ?_⟩ <;> intros <;>
                simp_all [resolvePath, owLoop, hfind]
          | some e =>
              cases e with
              | leaf n tx =>
                  refine ⟨?_, ?_, ?_, ?_⟩ <;> intros <;>
                    simp_all [resolvePath, owLoop, hfind]
              | node n ch =>
                  obtain ⟨ihN, ihL, ihI, ihB⟩ := ih ch pstr new
                  refine ⟨?_, ?_, ?_, ?_⟩
                  · intro hr
                    simp only [resolvePath, hfind] at hr
                    simp [owLoop, hfind, ihN hr]
                  · intro tx hr
                    simp only [resolvePath, hfind] at hr
                    obtain ⟨out, hout⟩ := ihL tx hr
                    exact ⟨replaceFirstTitle h (Sect.node n out) sibs,
                      by simp [owLoop, hfind, hout]⟩
                  · intro hr
                    simp only [resolvePath, hfind] at hr
                    simp [owLoop, hfind, ihI hr]
                  · intro hr
                    simp only [resolvePath, hfind] at hr
                    simp [owLoop, hfind, ihB hr]

/-- A resolved path is nonempty when its outcome is not emptyPath. -/
theorem resolvePath_ne_empty {secs : List Sect} {path : List String}
    (h : resolvePath secs path ≠ .emptyPath) : path ≠ [] := by
  intro hp
  subst hp
  simp [resolvePath] at h

/-- Extending a path that resolves to a leaf runs past that leaf. -/
theorem resolve_append_beyond :
    ∀ (pre : List String) (secs : List Sect) (t : String) (seg : String) (rest : List String),
      resolvePath secs pre = .leafText t →
      resolvePath secs (pre ++ seg :: rest) = .beyondLeaf := by
  intro pre
  induction pre with
  | nil => intro secs t seg rest h; simp [resolvePath] at h
  | cons h₀ tail ih =>
      intro secs t seg rest h
      cases tail with
      | nil =>
          cases hfind : findEntry secs h₀ with
          | none => simp_all [resolvePath, hfind]
          | some e =>
              cases e <;> simp_all [resolvePath, hfind]
      | cons t₁ tl =>
          cases hfind : findEntry secs h₀ with
          | none => simp_all [resolvePath, hfind]
          | some e =>
              cases e with
              | leaf _ _ => simp_all [resolvePath, hfind]
              | node n ch =>
                  have := ih ch t seg rest
                  simp_all [resolvePath, hfind]

/-- C1: for every section tree produced by the Parser from some input text,
serializing it with to_wikitext and re-parsing the result with the Parser
yields a tree deep-equal to the original.  The spec's proviso that the input
was already in normalized form (same heading levels, no stray non-doubled '='
runs) is formalized as the input being a fixed point of serialize-after-parse,
which is exactly what normalization of the input guarantees. -/
theorem C1_roundtrip (w : String) (hnorm : to_wikitext (parse_wikitext w) = some w) :
    parse_wikitext ((to_wikitext (parse_wikitext w)).getD "") = parse_wikitext w := by
  rw [hnorm]
  rfl

/-- Witness for C1 at a concrete normalized document with a lead, nested
sections and interleaved content. -/
theorem C1_roundtrip_witness :
    parse_wikitext ((to_wikitext (parse_wikitext
        "lead\n==A==\nbody\n===B===\nmore\n==C==\ntail\n")).getD "") =
      parse_wikitext "lead\n==A==\nbody\n===B===\nmore\n==C==\ntail\n" :=
  C1_roundtrip "lead\n==A==\nbody\n===B===\nmore\n==C==\ntail\n" (by rfl)

/-- C7: the Parser normalizes heading levels so the tree never has a level
gap: an H1 heading line is treated as level 2 (parsing "= Title =\n" yields a
single top-level section named "Title"), a heading that skips a level (an H4
directly under an H2) is clamped to parent.level + 1 and becomes a level-3
child, and a marker longer than 6 is clamped to level 6 (the H7 heading below
lands at level 6, as a sibling of the H6 section rather than its child).
Parsing is a total function, so it only ever emits diagnostics, never fails. -/
theorem C7_heading_normalization :
    parse_wikitext "= Title =\n" = [Sect.leaf "Title" ""] ∧
    parse_wikitext "==A==\n====B====\n" = [Sect.node "A" [Sect.leaf "B" ""]] ∧
    parse_wikitext
        "==A==\n===B===\n====C====\n=====D=====\n======E======\n=======F=======\n" =
      [Sect.node "A" [Sect.node "B" [Sect.node "C"
        [Sect.node "D" [Sect.leaf "E" "", Sect.leaf "F" ""]]]]] :=
  ⟨rfl, rfl, rfl⟩

/-- C8: get_section and overwrite_section fail with the KeyError kind exactly
when a path segment has no matching heading in the current sibling list
(outcome NotFound), fail with the ValueError kind when the final matched entry
is an interior node (outcome InvalidOperation), and on a leaf match
get_section returns that leaf's text. -/
theorem C8_accessor_contract (secs : List Sect) (path : List String) (nt : String) :
    (resolvePath secs path = .notFound →
      get_section secs path =
        .error (.keyError ("Section path " ++ joinPath path ++ " not found.")) ∧
      overwrite_section secs path nt =
        .error (.keyError ("Section path " ++ joinPath path ++ " not found."))) ∧
    (resolvePath secs path = .invalidOp →
      get_section secs path =
        .error (.valueError ("Section path " ++ joinPath path ++ " refers to subsections, not content.")) ∧
      overwrite_section secs path nt =
        .error (.valueError ("Section path " ++ joinPath path ++ " refers to subsections, not content."))) ∧
    (∀ t, resolvePath secs path = .leafText t → get_section secs path = .ok t) := by
  obtain ⟨lN, lL, lI, lB⟩ := locLoop_resolve path secs (joinPath path) none
  obtain ⟨oN, oL, oI, oB⟩ := owLoop_resolve path secs (joinPath path) nt
  have hpathNe : resolvePath secs path ≠ .emptyPath → ¬ path.isEmpty := by
    intro h
    have := resolvePath_ne_empty h
    simpa [List.isEmpty_iff] using this
  refine ⟨?_, ?_, ?_⟩
  · intro hr
    have hne := hpathNe (by simp [hr])
    constructor
    · simp [get_section, locate_section, hne, lN hr]
    · simp [overwrite_section, hne, oN hr]
  · intro hr
    have hne := hpathNe (by simp [hr])
    obtain ⟨n, ch, hok⟩ := lI hr
    constructor
    · simp [get_section, locate_section, hne, hok]
    · simp [overwrite_section, hne, oI hr]
  · intro t hr
    have hne := hpathNe (by simp [hr])
    obtain ⟨n, hok⟩ := lL t hr
    simp [get_section, locate_section, hne, hok]

/-- Witness for C8 on a concrete tree: a missing heading raises KeyError, an
interior target raises ValueError, and a leaf target returns its text. -/
theorem C8_accessor_contract_witness :
    (get_section [Sect.node "Geography" [Sect.leaf "__content__" "geo"]] ["Nope"] =
        .error (.keyError ("Section path Nope not found.")) ∧
      overwrite_section [Sect.node "Geography" [Sect.leaf "__content__" "geo"]] ["Nope"] "x" =
        .error (.keyError ("Section path Nope not found."))) ∧
    (get_section [Sect.node "Geography" [Sect.leaf "__content__" "geo"]] ["Geography"] =
        .error (.valueError ("Section path Geography refers to subsections, not content.")) ∧
      overwrite_section [Sect.node "Geography" [Sect.leaf "__content__" "geo"]] ["Geography"] "x" =
        .error (.valueError ("Section path Geography refers to subsections, not content."))) ∧
    get_section [Sect.node "Geography" [Sect.leaf "__content__" "geo"]]
        ["Geography", "__content__"] = .ok "geo" := by
  obtain ⟨hN, hI, hL⟩ :=
    C8_accessor_contract [Sect.node "Geography" [Sect.leaf "__content__" "geo"]] ["Nope"] "x"
  obtain ⟨hN', hI', hL'⟩ :=
    C8_accessor_contract [Sect.node "Geography" [Sect.leaf "__content__" "geo"]] ["Geography"] "x"
  obtain ⟨hN'', hI'', hL''⟩ :=
    C8_accessor_contract [Sect.node "Geography" [Sect.leaf "__content__" "geo"]]
      ["Geography", "__content__"] "x"
  exact ⟨hN (by rfl), hI' (by rfl), hL'' "geo" (by rfl)⟩

/-- C10: a key path with at least two segments whose proper prefix resolves to
a leaf raises the ValueError kind (the one the extends-beyond message belongs
to, the same exception class as the interior-node failure), not KeyError, in
both get_section and overwrite_section; likewise, an empty key path raises
ValueError, not KeyError. -/
theorem C10_beyond_leaf_value_error (secs : List Sect) (pre : List String)
    (seg : String) (rest : List String) (t nt : String)
    (h : resolvePath secs pre = .leafText t) :
    (get_section secs (pre ++ seg :: rest) =
        .error (.valueError ("Section path " ++ joinPath (pre ++ seg :: rest) ++
          " extends beyond available headings.")) ∧
      overwrite_section secs (pre ++ seg :: rest) nt =
        .error (.valueError ("Section path " ++ joinPath (pre ++ seg :: rest) ++
          " extends beyond available headings."))) ∧
    (get_section secs [] = .error (.valueError ("key_path must identify a section.")) ∧
      overwrite_section secs [] nt =
        .error (.valueError ("key_path must identify a section."))) := by
  have hb : resolvePath secs (pre ++ seg :: rest) = .beyondLeaf :=
    resolve_append_beyond pre secs t seg rest h
  obtain ⟨_, _, _, lB⟩ :=
    locLoop_resolve (pre ++ seg :: rest) secs (joinPath (pre ++ seg :: rest)) none
  obtain ⟨_, _, _, oB⟩ :=
    owLoop_resolve (pre ++ seg :: rest) secs (joinPath (pre ++ seg :: rest)) nt
  have hne : ¬ (pre ++ seg :: rest).isEmpty := by simp
  refine ⟨⟨?_, ?_⟩, ?_, ?_⟩
  · simp [get_section, locate_section, hne, lB hb]
  · simp [overwrite_section, hne, oB hb]
  · simp [get_section, locate_section]
  · simp [overwrite_section]

/-- Is a heading one of the two reserved sentinel values? -/
def sentinelTitle (t : String) : Bool := t == "__lead__" || t == "__content__"

mutual

/-- A parsed Section object is good when its title is not a sentinel and all
its children are good; every Section the parser creates below the root gets
its title from a heading line. -/
def psGood : PSec → Bool
  | .mk t _ ch => !sentinelTitle t && psListGood ch

def psListGood : List PSec → Bool
  | [] => true
  | p :: ps => psGood p && psListGood ps

end

/-- Every entry after the first has a heading other than __content__ (this is
exactly: at most one __content__ entry, and if present it is first). -/
def titlesTailNoContent : List Sect → Bool
  | [] => true
  | _ :: rest => rest.all (fun e => sectTitle e != "__content__")

/-- No entry of the list is headed __lead__. -/
def noLeadTitles (l : List Sect) : Bool := l.all (fun e => sectTitle e != "__lead__")

mutual

/-- The structural invariants of the claim, recursively: within every interior
node's child list, at most one __content__ entry exists and it comes first,
and __lead__ never appears as a child heading. -/
def sectOK : Sect → Bool
  | .leaf _ _ => true
  | .node _ ch => titlesTailNoContent ch && noLeadTitles ch && sectListOK ch

def sectListOK : List Sect → Bool
  | [] => true
  | e :: rest => sectOK e && sectListOK rest

end

/-- Every entry after the first has a heading other than __lead__. -/
def titlesTailNoLead : List Sect → Bool
  | [] => true
  | _ :: rest => rest.all (fun e => sectTitle e != "__lead__")

/-- The document-level invariant: __lead__ appears at most once and only as
the first element of the document-level list, and every interior node
satisfies the __content__ and __lead__ child invariants. -/
def docOK (l : List Sect) : Bool := titlesTailNoLead l && sectListOK l

/-- A line is harmless when it is not a heading, or its heading title is not a
sentinel value. -/
def lineTitleOK (line : List Char) : Bool :=
  match headingMatch (stripWS line) with
  | none => true
  | some (_, t) => !sentinelTitle (String.mk t)

/-- No heading line of the input is titled __lead__ or __content__. -/
def noSentinelHeadings (w : String) : Bool := (splitLinesKE w.data).all lineTitleOK

/-- The parser-stack invariant: every frame above the bottom has a non-sentinel
title (it was pushed for a heading), and every frame's completed children are
good. -/
def stackOK : List Frame → Prop
  | [] => True
  | [f] => psListGood f.children = true
  | f :: g :: rest =>
      (sentinelTitle f.title = false ∧ psListGood f.children = true) ∧ stackOK (g :: rest)

theorem psListGood_append (a b : List PSec) :
    psListGood (a ++ b) = (psListGood a && psListGood b) := by
  induction a with
  | nil => simp [psListGood]
  | cons p ps ih => simp [psListGood, ih, Bool.and_assoc]

theorem absorb_cons_stackOK {f g : Frame} {rest : List Frame}
    (h : stackOK (f :: g :: rest)) : stackOK (absorb g f :: rest) := by
  cases rest with
  | nil =>
      obtain ⟨⟨ht, hc⟩, hg⟩ := h
      simp only [stackOK] at hg ⊢
      simp [absorb, psListGood_append, psListGood, psGood, toPSec, hg, ht, hc]
  | cons h' t =>
      obtain ⟨⟨ht, hc⟩, ⟨hgt, hgc⟩, hrest⟩ := h
      refine ⟨⟨?_, ?_⟩, hrest⟩
      · simpa [absorb] using hgt
      · simp [absorb, psListGood_append, psListGood, psGood, toPSec, hgc, ht, hc]

theorem popGo_stackOK :
    ∀ (rest : List Frame) (f : Frame) (lvl : Nat),
      stackOK (f :: rest) → stackOK (popGo lvl f rest) := by
  intro rest
  induction rest with
  | nil => intro f lvl h; simpa [popGo] using h
  | cons g rest' ih =>
      intro f lvl h
      by_cases hl : lvl ≤ f.level
      · simpa [popGo, hl] using ih (absorb g f) lvl (absorb_cons_stackOK h)
      · simpa [popGo, hl] using h

theorem popWhile_stackOK (st : List Frame) (lvl : Nat) (h : stackOK st) :
    stackOK (popWhile lvl st) := by
  cases st with
  | nil => simpa [popWhile] using h
  | cons f rest => simpa [popWhile] using popGo_stackOK rest f lvl h

theorem addContent_stackOK (st : List Frame) (line : List Char) (h : stackOK st) :
    stackOK (addContent st line) := by
  cases st with
  | nil => simpa [addContent] using h
  | cons f rest =>
      cases rest with
      | nil => simpa [addContent, stackOK] using h
      | cons g t =>
          obtain ⟨⟨ht, hc⟩, hrest⟩ := h
          exact ⟨⟨ht, hc⟩, hrest⟩

theorem cons_new_stackOK (st : List Frame) (fr : Frame)
    (hch : fr.children = []) (ht : sentinelTitle fr.title = false)
    (h : stackOK st) : stackOK (fr :: st) := by
  cases st with
  | nil => simp [stackOK, hch, psListGood]
  | cons g rest => exact ⟨⟨ht, by simp [hch, psListGood]⟩, h⟩

theorem ite_popWhile_stackOK (c : Prop) [Decidable c] (lvl : Nat) (st' : List Frame)
    (h : stackOK st') : stackOK (if c then popWhile lvl st' else st') := by
  by_cases hc : c
  · simpa [hc] using popWhile_stackOK st' lvl h
  · simpa [hc] using h

theorem stepLine_stackOK (st : List Frame) (line : List Char)
    (h : stackOK st) (hl : lineTitleOK line = true) : stackOK (stepLine st line) := by
  unfold stepLine
  cases hm : headingMatch (stripWS line) with
  | none => exact addContent_stackOK st line h
  | some pr =>
      obtain ⟨raw, tc⟩ := pr
      have htitle : sentinelTitle (String.mk tc) = false := by
        have := hl
        unfold lineTitleOK at this
        rw [hm] at this
        simpa using this
      refine cons_new_stackOK _ _ rfl htitle ?_
      exact ite_popWhile_stackOK _ _ _ (popWhile_stackOK _ _ h)

theorem foldl_stepLine_stackOK :
    ∀ (lines : List (List Char)) (st : List Frame),
      stackOK st → (∀ l ∈ lines, lineTitleOK l = true) →
      stackOK (lines.foldl stepLine st) := by
  intro lines
  induction lines with
  | nil => intro st h _; simpa using h
  | cons l rest ih =>
      intro st h hall
      simp only [List.foldl_cons]
      exact ih _ (stepLine_stackOK st l h (hall l (by simp)))
        (fun x hx => hall x (by simp [hx]))

theorem collapseGo_ok :
    ∀ (rest : List Frame) (f : Frame), stackOK (f :: rest) →
      psListGood (collapseGo f rest).children = true := by
  intro rest
  induction rest with
  | nil => intro f h; simpa [collapseGo, stackOK] using h
  | cons g rest' ih =>
      intro f h
      simpa [collapseGo] using ih (absorb g f) (absorb_cons_stackOK h)

theorem collapseStack_ok (st : List Frame) (h : stackOK st) :
    psListGood (collapseStack st).children = true := by
  cases st with
  | nil => simp [collapseStack, rootFrame, psListGood]
  | cons f rest => simpa [collapseStack] using collapseGo_ok rest f h

/-- toNested preserves the section's title. -/
theorem toNested_title (p : PSec) : sectTitle (toNested p) = p.title := by
  cases p with
  | mk t c ch => cases ch <;> simp [toNested, sectTitle, PSec.title]

mutual

theorem toNested_ok : ∀ (p : PSec), psGood p = true → sectOK (toNested p) = true
  | .mk t c [], _ => by simp [toNested, sectOK]
  | .mk t c (k :: ks), h => by
      have hsp : (!sentinelTitle t && psListGood (k :: ks)) = true := by
        simpa [psGood] using h
      have hg : psListGood (k :: ks) = true := by
        simp at hsp
        exact hsp.2
      obtain ⟨hok, hsent⟩ := toNestedList_ok (k :: ks) hg
      have htc : (toNestedList (k :: ks)).all (fun e => sectTitle e != "__content__") = true := by
        refine List.all_eq_true.mpr ?_
        intro e he
        have := List.all_eq_true.mp hsent e he
        simp [sentinelTitle] at this
        simp [this.2]
      have htl : (toNestedList (k :: ks)).all (fun e => sectTitle e != "__lead__") = true := by
        refine List.all_eq_true.mpr ?_
        intro e he
        have := List.all_eq_true.mp hsent e he
        simp [sentinelTitle] at this
        simp [this.1]
      by_cases hc : c = ""
      · have htail : titlesTailNoContent (toNestedList (k :: ks)) = true := by
          cases hnl : toNestedList (k :: ks) with
          | nil => simp [titlesTailNoContent]
          | cons e es =>
              simp only [titlesTailNoContent]
              have := htc
              rw [hnl] at this
              simp [List.all_eq_true] at this ⊢
              exact fun x hx => this.2 x hx
        simp [toNested, hc, sectOK, noLeadTitles, htail, hok, htl]
      · have h1 : titlesTailNoContent
            (Sect.leaf "__content__" c :: toNestedList (k :: ks)) = true := by
          simpa [titlesTailNoContent] using htc
        have h2 : noLeadTitles
            (Sect.leaf "__content__" c :: toNestedList (k :: ks)) = true := by
          simpa [noLeadTitles, sectTitle] using htl
        have h3 : sectListOK
            (Sect.leaf "__content__" c :: toNestedList (k :: ks)) = true := by
          simpa [sectListOK, sectOK] using hok
        simp [toNested, hc, sectOK, h1, h2, h3]

theorem toNestedList_ok :
    ∀ (ps : List PSec), psListGood ps = true →
      sectListOK (toNestedList ps) = true ∧
      (toNestedList ps).all (fun e => !sentinelTitle (sectTitle e)) = true
  | [], _ => by simp [toNestedList, sectListOK]
  | p :: ps, h => by
      have hp : psGood p = true ∧ psListGood ps = true := by
        simpa [psListGood, Bool.and_eq_true] using h
      obtain ⟨ihok, ihsent⟩ := toNestedList_ok ps hp.2
      have hpo := toNested_ok p hp.1
      have hpt : (!sentinelTitle (sectTitle (toNested p))) = true := by
        rw [toNested_title]
        cases p with
        | mk t c ch =>
            have : (!sentinelTitle t && psListGood ch) = true := by
              simpa [psGood] using hp.1
            simp at this
            simp [PSec.title, this.1]
      refine ⟨?_, ?_⟩
      · simp [toNestedList, sectListOK, hpo, ihok]
      · simp only [toNestedList, List.all_cons, Bool.and_eq_true]
        exact ⟨hpt, ihsent⟩

end

/-- If a section list has no __lead__ heading at all, dropping any head keeps
the document invariant satisfied. -/
theorem docOK_no_lead (L : List Sect) (hok : sectListOK L = true)
    (hnl : L.all (fun e => sectTitle e != "__lead__") = true) : docOK L = true := by
  cases L with
  | nil => simp [docOK, titlesTailNoLead, sectListOK]
  | cons e es =>
      simp only [List.all_cons, Bool.and_eq_true] at hnl
      simp [docOK, titlesTailNoLead, hnl.2, hok]

/-- Prepending a single lead leaf to a lead-free list keeps the document
invariant satisfied. -/
theorem docOK_cons_lead (c : String) (L : List Sect) (hok : sectListOK L = true)
    (hnl : L.all (fun e => sectTitle e != "__lead__") = true) :
    docOK (Sect.leaf "__lead__" c :: L) = true := by
  simp [docOK, titlesTailNoLead, sectListOK, sectOK, hnl, hok]

/-- C9 (amended): every section list produced by the Parser from input whose
heading lines are not themselves titled __lead__ or __content__ satisfies the
structural invariants: at most one __content__ child per interior node, always
first, and __lead__ at most once, only as the first document-level entry. -/
theorem C9_parser_invariants (w : String) (h : noSentinelHeadings w = true) :
    docOK (parse_wikitext w) = true := by
  unfold parse_wikitext
  have hstack : stackOK ((splitLinesKE w.data).foldl stepLine [rootFrame]) := by
    refine foldl_stepLine_stackOK _ _ ?_ ?_
    · simp [stackOK, rootFrame, psListGood]
    · intro l hl
      exact List.all_eq_true.mp h l hl
  have hroot := collapseStack_ok _ hstack
  obtain ⟨hok, hsent⟩ := toNestedList_ok _ hroot
  have hnl : (toNestedList (collapseStack ((splitLinesKE w.data).foldl stepLine
      [rootFrame])).children).all (fun e => sectTitle e != "__lead__") = true := by
    refine List.all_eq_true.mpr ?_
    intro e he
    have := List.all_eq_true.mp hsent e he
    simp [sentinelTitle] at this
    simp [this.1]
  by_cases hc : (collapseStack ((splitLinesKE w.data).foldl stepLine [rootFrame])).content = ""
  · simpa [hc] using docOK_no_lead _ hok hnl
  · simpa [hc] using docOK_cons_lead _ _ hok hnl

/-- Witness for C9 at a concrete document without sentinel-titled headings. -/
theorem C9_parser_invariants_witness :
    docOK (parse_wikitext "intro\n==History==\nstuff\n===Early===\nx\n==Links==\ny\n") = true :=
  C9_parser_invariants "intro\n==History==\nstuff\n===Early===\nx\n==Links==\ny\n" (by rfl)

/-- Counterexample for C9 as stated: a heading line literally titled
__content__ produces an interior node with two __content__ children, the
second of which is not first, so the invariant fails on this parser output. -/
theorem C9_invariant_counterexample :
    docOK (parse_wikitext "==A==\na\n===__content__===\nb\n") = false := by rfl

/-- Python-style slice text[a:b] on a character list. -/
def slice (l : List Char) (a b : Nat) : List Char := (l.take b).drop a

/-- All indices at which pat occurs in l (occurrences may overlap). -/
def subOccsAux (pat : List Char) (i : Nat) : List Char → List Nat
  | [] => if pat.isEmpty then [i] else []
  | c :: rest =>
      if pat.isPrefixOf (c :: rest) then i :: subOccsAux pat (i + 1) rest
      else subOccsAux pat (i + 1) rest

def subOccs (pat l : List Char) : List Nat := subOccsAux pat 0 l

/-- str.find: index of the first occurrence of pat. -/
def findSub (pat l : List Char) : Option Nat := (subOccs pat l).head?

/-- str.rfind: index of the last occurrence of pat. -/
def rfindSub (pat l : List Char) : Option Nat := (subOccs pat l).getLast?

/-- The "in" operator on strings. -/
def containsSub (l pat : List Char) : Bool := (findSub pat l).isSome

/-- Number of positions at which pat occurs. -/
def countSubOcc (l pat : List Char) : Nat := (subOccs pat l).length

/-- Case-insensitive prefix test (the re.IGNORECASE literals of the source are
ASCII). -/
def ciPrefix (pat l : List Char) : Bool :=
  decide (pat.length ≤ l.length) &&
    ((l.take pat.length).map Char.toLower == pat.map Char.toLower)

/-- Case-insensitive find of the first occurrence. -/
def findSubCIAux (pat : List Char) (i : Nat) : List Char → Option Nat
  | [] => if pat.isEmpty then some i else none
  | c :: rest =>
      if ciPrefix pat (c :: rest) then some i else findSubCIAux pat (i + 1) rest

def findSubCI (pat l : List Char) : Option Nat := findSubCIAux pat 0 l

/-- _find_template_end: index just after the closing braces of the template
starting at offset i, scanning a depth counter over brace pairs; none models
the -1 of the source. -/
def findTplEnd (depth : Int) (i : Nat) : List Char → Option Nat
  | a :: b :: rest =>
      if a == lb && b == lb then findTplEnd (depth + 1) (i + 2) rest
      else if a == rb && b == rb then
        (if depth - 1 == 0 then some (i + 2) else findTplEnd (depth - 1) (i + 2) rest)
      else findTplEnd depth (i + 1) (b :: rest)
  | _ => none

/-- The character class [A-Za-z0-9_-]. -/
def wordChar (c : Char) : Bool := c.isAlpha || c.isDigit || c == '_' || c == '-'

/-- One attempt of CITATION_PARAM_RE after an anchor: optional whitespace, a
nonempty [A-Za-z0-9_-]+ run, optional whitespace, then '='. -/
def anchorTry (l : List Char) : Bool :=
  let l1 := l.dropWhile pyIsSpace
  let ident := l1.takeWhile wordChar
  !ident.isEmpty &&
    (match (l1.drop ident.length).dropWhile pyIsSpace with
     | '=' :: _ => true
     | _ => false)

/-- CITATION_PARAM_RE anchored after any '|'. -/
def cpAfterPipe : List Char → Bool
  | [] => false
  | c :: rest => (c == '|' && anchorTry rest) || cpAfterPipe rest

/-- re.search of CITATION_PARAM_RE = r"(?:^|\|)\s*[A-Za-z0-9_-]+\s*=". -/
def citationParamSearch (l : List Char) : Bool := anchorTry l || cpAfterPipe l

/-- re.match of r"[A-Za-z][A-Za-z0-9_-]*$" against the whole name ('$' also
matches just before one final newline). -/
def nameFullMatch (n : List Char) : Bool :=
  let core := match n.reverse with
    | '\n' :: r => r.reverse
    | _ => n
  match core with
  | [] => false
  | c :: rest => c.isAlpha && rest.all wordChar

/-- CITATION_SHORT_NAMES of parser_utils. -/
def CITATION_SHORT_NAMES : List String :=
  ["sfn", "sfnp", "sfnm", "sfnmp", "harv", "harvnb", "harvp", "harvc", "harvtxt", "r"]

/-- _looks_like_citation_template. -/
def looks_like_citation_template (content : List Char) : Bool :=
  let text := stripWS content
  if text.isEmpty then false
  else if !(text.contains '|') then false
  else
    let name := text.takeWhile (fun c => c != '|')
    let rest := text.drop (name.length + 1)
    let name' := rstripChar rb (lstripChar lb (stripWS name))
    let lowered := name'.map Char.toLower
    if ("cite".data.isPrefixOf lowered) || ("citation".data.isPrefixOf lowered) then true
    else if CITATION_SHORT_NAMES.contains (String.mk lowered) then true
    else if citationParamSearch rest && nameFullMatch name' then true
    else false

/-- Scanner for REF_CITE_RE = r"(<ref[^>]*>)(.*?)(</ref>)" with IGNORECASE and
DOTALL: at each position, an open tag runs to the first '>', the lazy body to
the first "</ref>" after it; matches are non-overlapping and scanning resumes
after each match.  Each match is (start, body start, end). -/
def refCiteScan (fuel pos : Nat) (l : List Char) : List (Nat × Nat × Nat) :=
  match fuel with
  | 0 => []
  | fuel' + 1 =>
      match l with
      | [] => []
      | _ :: tail =>
          if ciPrefix "<ref".data l then
            match (l.drop 4).findIdx? (fun c => c == '>') with
            | some j =>
                let bodyStart := pos + 4 + j + 1
                let afterOpen := (l.drop 4).drop (j + 1)
                match findSubCI "</ref>".data afterOpen with
                | some k =>
                    (pos, bodyStart, bodyStart + k + 6) ::
                      refCiteScan fuel' (bodyStart + k + 6) (afterOpen.drop (k + 6))
                | none => refCiteScan fuel' (pos + 1) tail
            | none => refCiteScan fuel' (pos + 1) tail
          else refCiteScan fuel' (pos + 1) tail

/-- All REF_CITE_RE matches of a text (the fuel strictly exceeds the number of
scan steps, which advance at least one position each). -/
def refCiteMatches (l : List Char) : List (Nat × Nat × Nat) :=
  refCiteScan (l.length + 1) 0 l

/-- Reassembly of re.sub: the text outside the matches is kept, each match is
replaced by f applied to it. -/
def subAssemble (l : List Char) (f : Nat × Nat × Nat → List Char) :
    Nat → List (Nat × Nat × Nat) → List Char
  | cursor, [] => l.drop cursor
  | cursor, m :: rest => slice l cursor m.1 ++ f m ++ subAssemble l f m.2.2 rest

/-- normalize_ref of enforce_ref_citation_template_braces, acting on one
REF_CITE_RE match of l. -/
def normalize_ref (l : List Char) (m : Nat × Nat × Nat) : List Char :=
  let whole := slice l m.1 m.2.2
  let openTag := slice l m.1 m.2.1
  let body := slice l m.2.1 (m.2.2 - 6)
  let closeTag := slice l (m.2.2 - 6) m.2.2
  let strippedB := stripWS body
  if strippedB.isEmpty then whole
  else
    let leadingWs := body.takeWhile pyIsSpace
    let trailingWs := (body.reverse.takeWhile pyIsSpace).reverse
    let leadBr := (strippedB.takeWhile (fun c => c == lb)).length
    if leadBr > 3 then whole
    else if [lb, lb].isPrefixOf strippedB then
      let tEnd := findTplEnd 0 0 strippedB
      let suffix := match tEnd with
        | some e => stripWS (strippedB.drop e)
        | none => []
      if !suffix.isEmpty && suffix.any (fun c => c != rb) then whole
      else if tEnd == some strippedB.length && leadBr == 2 &&
          looks_like_citation_template (slice strippedB 2 (strippedB.length - 2)) then whole
      else
        let inner0 := match tEnd with
          | some e => slice strippedB 2 (e - 2)
          | none =>
              match findTplEnd 0 0 (strippedB ++ [rb, rb]) with
              | some se => slice (strippedB ++ [rb, rb]) 2 (se - 2)
              | none => strippedB.drop 2
        let inner := inner0.drop (leadBr - 2)
        if !(looks_like_citation_template inner) then whole
        else openTag ++ leadingWs ++ [lb, lb] ++ stripWS inner ++ [rb, rb] ++
          trailingWs ++ closeTag
    else if [lb].isPrefixOf strippedB then
      let simulated := lb :: strippedB
      let sEnd := findTplEnd 0 0 simulated
      let suffix := match sEnd with
        | some e => stripWS (simulated.drop e)
        | none => []
      if !suffix.isEmpty && suffix.any (fun c => c != rb) then whole
      else
        let inner := match sEnd with
          | some e => slice simulated 2 (e - 2)
          | none => rstripChar rb (lstripChar lb strippedB)
        if !(looks_like_citation_template inner) then whole
        else openTag ++ leadingWs ++ [lb, lb] ++
          rstripChar rb (lstripChar lb (stripWS inner)) ++ [rb, rb] ++
          trailingWs ++ closeTag
    else if !(looks_like_citation_template strippedB) then whole
    else openTag ++ leadingWs ++ [lb, lb] ++ stripWS strippedB ++ [rb, rb] ++
      trailingWs ++ closeTag

/-- enforce_ref_citation_template_braces. -/
def enforce_ref_citation_template_braces (w : String) : String :=
  String.mk (subAssemble w.data (normalize_ref w.data) 0 (refCiteMatches w.data))

/-- C2 (code bug in pass 3): enforce_ref_citation_template_braces is not
idempotent.  On a ref body that looks like a citation but starts without
braces and ends with stray closing braces, the final normalization branch
wraps the body without stripping its trailing braces, producing four closing
braces (contradicting the function's own docstring, which promises exactly
double braces at the edges); the second application then strips them, so
f(f(x)) differs from f(x). -/
theorem C2_enforce_braces_not_idempotent :
    enforce_ref_citation_template_braces "<ref>cite web|title=T\x7d\x7d</ref>" =
      "<ref>\x7b\x7bcite web|title=T\x7d\x7d\x7d\x7d</ref>" ∧
    enforce_ref_citation_template_braces (enforce_ref_citation_template_braces
        "<ref>cite web|title=T\x7d\x7d</ref>") =
      "<ref>\x7b\x7bcite web|title=T\x7d\x7d</ref>" ∧
    enforce_ref_citation_template_braces (enforce_ref_citation_template_braces
        "<ref>cite web|title=T\x7d\x7d</ref>") ≠
      enforce_ref_citation_template_braces "<ref>cite web|title=T\x7d\x7d</ref>" :=
  ⟨by rfl, by rfl, by decide⟩

/-- Positions at which MULTILINE '^' matches: 0 and every position following a
newline. -/
def lineStartsAux (i : Nat) : List Char → List Nat
  | [] => []
  | c :: rest =>
      if c == '\n' then (i + 1) :: lineStartsAux (i + 1) rest
      else lineStartsAux (i + 1) rest

def lineStarts (l : List Char) : List Nat := 0 :: lineStartsAux 0 l

/-- The line beginning at position p, up to (not including) its newline. -/
def lineAt (l : List Char) (p : Nat) : List Char :=
  (l.drop p).takeWhile (fun c => c != '\n')

/-- Whether a line matches GENERAL_HEADING_RE = r"^={2,6}.*=+\s*$": after
dropping trailing whitespace it must have at least three characters, start
with two '=' and end with '='. -/
def isGeneralHeading (line : List Char) : Bool :=
  let core := rstripWS line
  decide (3 ≤ core.length) && ['=', '='].isPrefixOf core &&
    (match core.getLast? with
     | some '=' => true
     | _ => false)

/-- Match starts of GENERAL_HEADING_RE over the document. -/
def generalHeadingStarts (l : List Char) : List Nat :=
  (lineStarts l).filter (fun p => isGeneralHeading (lineAt l p))

/-- Index of the last occurrence of a character. -/
def lastIdxOf (c : Char) (l : List Char) : Option Nat :=
  match l.reverse.findIdx? (fun d => d == c) with
  | some j => some (l.length - 1 - j)
  | none => none

/-- Attempt of CENSUS_HEADING_RE at position p (a '^' position): a run of at
least three '=', whitespace, one of the years, mandatory whitespace, "census"
(case-insensitively), whitespace, exactly the same '=' run, then r"\s*$" —
whose greedy-then-backtracking match ends either at end of input or just
before the last newline of the trailing whitespace run.  Returns the year and
the match end. -/
def censusTry (l : List Char) (p : Nat) : Option (String × Nat) :=
  let s := l.drop p
  let r := (s.takeWhile (fun c => c == '=')).length
  if r < 3 then none
  else
    let s1 := (s.drop r).dropWhile pyIsSpace
    let year? : Option String :=
      if "2020".data.isPrefixOf s1 then some "2020"
      else if "2010".data.isPrefixOf s1 then some "2010"
      else if "2000".data.isPrefixOf s1 then some "2000"
      else none
    match year? with
    | none => none
    | some y =>
        let s2 := s1.drop 4
        let ws2 := s2.takeWhile pyIsSpace
        if ws2.isEmpty then none
        else
          let s3 := s2.drop ws2.length
          if ciPrefix "census".data s3 then
            let s4 := (s3.drop 6).dropWhile pyIsSpace
            if (List.replicate r '=').isPrefixOf s4 then
              let s5 := s4.drop r
              let trail := s5.takeWhile pyIsSpace
              if (s5.drop trail.length).isEmpty then
                some (y, p + (s.length - s5.length) + trail.length)
              else
                match lastIdxOf '\n' trail with
                | some k => some (y, p + (s.length - s5.length) + k)
                | none => none
            else none
          else none

/-- finditer for CENSUS_HEADING_RE: candidate '^' positions are tried in
order, skipping positions inside an earlier match. -/
def censusScanAux (l : List Char) (cursor : Nat) : List Nat → List (Nat × String × Nat)
  | [] => []
  | p :: rest =>
      if p < cursor then censusScanAux l cursor rest
      else
        match censusTry l p with
        | some (y, e) => (p, y, e) :: censusScanAux l e rest
        | none => censusScanAux l cursor rest

/-- All CENSUS_HEADING_RE matches: (start, year, match end). -/
def censusMatches (l : List Char) : List (Nat × String × Nat) :=
  censusScanAux l 0 (lineStarts l)

/-- Span end for a census heading: the first heading position after its start,
or the document end (heading_positions with len(wikitext) appended). -/
def sectionEndFor (l : List Char) (start : Nat) : Nat :=
  (((generalHeadingStarts l) ++ [l.length]).filter (fun p => start < p)).headD l.length

/-- The sections list of fix_census_section_order:
(start, span end, year, span text), in document order. -/
def census_sections (l : List Char) : List (Nat × Nat × String × List Char) :=
  (censusMatches l).map (fun q => (q.1, sectionEndFor l q.1, q.2.1, slice l q.1 (sectionEndFor l q.1)))

/-- current_order: the years of the matched headings in document order. -/
def currentYearOrder (w : String) : List String :=
  (census_sections w.data).map (fun q => q.2.2.1)

/-- desired_order: the canonical years 2020, 2010, 2000 restricted to those
present. -/
def desiredYearOrder (w : String) : List String :=
  ["2020", "2010", "2000"].filter (fun y => (currentYearOrder w).contains y)

/-- section_by_year[year]: a dict built in document order keeps the last span
for each year. -/
def lastTextForYear (secs : List (Nat × Nat × String × List Char)) (y : String) : List Char :=
  match (secs.filter (fun q => q.2.2.1 == y)).getLast? with
  | some q => q.2.2.2
  | none => []

/-- Start of the first matched span. -/
def firstMatchedStart (w : String) : Nat :=
  ((census_sections w.data).map (fun q => q.1)).headD 0

/-- End of the last matched span. -/
def lastMatchedEnd (w : String) : Nat :=
  ((census_sections w.data).map (fun q => q.2.1)).getLastD w.data.length

/-- The concatenation of the (per-year last) matched spans in canonical
order. -/
def reorderedSpans (w : String) : List Char :=
  ((desiredYearOrder w).map (lastTextForYear (census_sections w.data))).flatten

/-- fix_census_section_order: reorder census sections to 2020, 2010, 2000. -/
def fix_census_section_order (w : String) : String :=
  if (censusMatches w.data).length < 2 then w
  else if currentYearOrder w == desiredYearOrder w then w
  else String.mk (w.data.take (firstMatchedStart w) ++ reorderedSpans w ++
    w.data.drop (lastMatchedEnd w))

/-- C6 (amended): fix_census_section_order returns its input unchanged when
fewer than two census headings match or when their year order is already
canonical; otherwise it replaces the whole block from the start of the first
matched span to the end of the last matched span by the concatenation of the
per-year (last) matched spans in canonical order, keeping only the characters
before the first span and from the end of the last span onwards — characters
between matched spans that belong to no span (an interleaved unrelated
section) are dropped, not kept in place. -/
theorem C6_reorder_shape (w : String) :
    ((censusMatches w.data).length < 2 → fix_census_section_order w = w) ∧
    (currentYearOrder w = desiredYearOrder w → fix_census_section_order w = w) ∧
    (2 ≤ (censusMatches w.data).length → currentYearOrder w ≠ desiredYearOrder w →
      fix_census_section_order w = String.mk (w.data.take (firstMatchedStart w) ++
        reorderedSpans w ++ w.data.drop (lastMatchedEnd w))) := by
  refine ⟨?_, ?_, ?_⟩
  · intro h
    simp [fix_census_section_order, h]
  · intro h
    simp [fix_census_section_order, h]
  · intro h2 hord
    have hlt : ¬ (censusMatches w.data).length < 2 := by omega
    simp [fix_census_section_order, hlt, hord]

/-- Witness for C6 at the spec's Scenario B: 2010, 2020, 2000 sections with
one body line each and a trailing unrelated heading become 2020, 2010, 2000
with the trailing heading still in place. -/
theorem C6_reorder_shape_witness :
    fix_census_section_order
        "===2010 census===\n2010 data\n===2020 census===\n2020 data\n===2000 census===\n2000 data\n===Economy===\nOther text\n" =
      "===2020 census===\n2020 data\n===2010 census===\n2010 data\n===2000 census===\n2000 data\n===Economy===\nOther text\n" := by
  have h := (C6_reorder_shape
    "===2010 census===\n2010 data\n===2020 census===\n2020 data\n===2000 census===\n2000 data\n===Economy===\nOther text\n").2.2
    (by decide) (by decide)
  exact h.trans (by rfl)

/-- Counterexample for C6 as stated: with an unrelated section between two
census sections that need reordering, the unrelated section's characters do
not appear in the output at all, contradicting the claim that every character
outside the matched spans is left exactly where it was. -/
theorem C6_reorder_counterexample :
    fix_census_section_order "===2000 census===\nc\n==Other==\nb\n===2010 census===\na\n" =
      "===2010 census===\na\n===2000 census===\nc\n" ∧
    containsSub "===2000 census===\nc\n==Other==\nb\n===2010 census===\na\n".data
      "==Other==".data = true ∧
    containsSub (fix_census_section_order
      "===2000 census===\nc\n==Other==\nb\n===2010 census===\na\n").data
      "==Other==".data = false :=
  ⟨by rfl, by rfl, by rfl⟩

/-- One attempt of ALIGN_FIELD_RE (or ALIGN_FN_FIELD_RE) at the head of l:
'|', whitespace, the field name (case-insensitively), whitespace, '=',
whitespace, then the value run [^\n|}]*.  Returns (group-1 length, value
length). -/
def alignTryAt (pat l : List Char) : Option (Nat × Nat) :=
  match l with
  | '|' :: r1 =>
      let ws1 := r1.takeWhile pyIsSpace
      let r2 := r1.drop ws1.length
      if ciPrefix pat r2 then
        let r3 := r2.drop pat.length
        let ws2 := r3.takeWhile pyIsSpace
        match r3.drop ws2.length with
        | '=' :: r4 =>
            let ws3 := r4.takeWhile pyIsSpace
            let v := (r4.drop ws3.length).takeWhile
              (fun c => c != '\n' && c != '|' && c != rb)
            some (1 + ws1.length + pat.length + ws2.length + 1 + ws3.length, v.length)
        | _ => none
      else none
  | _ => none

/-- re.search for the align field patterns: (match start, value start, value
end) of the first match. -/
def alignSearchAux (pat : List Char) (i : Nat) : List Char → Option (Nat × Nat × Nat)
  | [] => none
  | c :: rest =>
      match alignTryAt pat (c :: rest) with
      | some (g1, vlen) => some (i, i + g1, i + g1 + vlen)
      | none => alignSearchAux pat (i + 1) rest

/-- _insert_field of fix_us_census_population_align. -/
def insert_field (tpl field : List Char) : List Char :=
  match rfindSub [rb, rb] tpl with
  | none => tpl ++ '\n' :: field
  | some e =>
      let pre := tpl.take e
      let suf := tpl.drop e
      let nl := match pre.getLast? with
        | some '\n' => ([] : List Char)
        | _ => ['\n']
      pre ++ nl ++ field ++ '\n' :: (suf.dropWhile pyIsSpace)

/-- normalize_align of fix_us_census_population_align: force align = right and
align-fn = center inside one template block. -/
def normalize_align (tpl : List Char) : List Char :=
  let tpl1 :=
    match alignSearchAux "align".data 0 tpl with
    | some q =>
        let value := slice tpl q.2.1 q.2.2
        if String.mk ((stripWS value).map Char.toLower) ≠ "right" then
          tpl.take q.2.1 ++ "right".data ++ tpl.drop q.2.2
        else tpl
    | none => insert_field tpl "| align = right".data
  match alignSearchAux "align-fn".data 0 tpl1 with
  | some q =>
      let value := slice tpl1 q.2.1 q.2.2
      if String.mk ((stripWS value).map Char.toLower) ≠ "center" then
        tpl1.take q.2.1 ++ "center".data ++ tpl1.drop q.2.2
      else tpl1
  | none => insert_field tpl1 "| align-fn = center".data

/-- The cursor loop of fix_us_census_population_align (fuel bounds the number
of template blocks, each of which consumes at least four characters). -/
def fixUSCensusGo (fuel : Nat) (l : List Char) : List Char :=
  match fuel with
  | 0 => l
  | fuel' + 1 =>
      match findSub "\x7b\x7bUS Census population".data l with
      | none => l
      | some s =>
          let pre := l.take s
          let rest := l.drop s
          match findTplEnd 0 0 rest with
          | none => pre ++ rest
          | some e => pre ++ normalize_align (rest.take e) ++ fixUSCensusGo fuel' (rest.drop e)

/-- fix_us_census_population_align. -/
def fix_us_census_population_align (w : String) : String :=
  if containsSub w.data "\x7b\x7bUS Census population".data then
    String.mk (fixUSCensusGo (w.data.length + 1) w.data)
  else w

/-- Worker of collapse_extra_newlines: each maximal newline run of length at
least three becomes exactly two newlines. -/
def collapseNlGo (fuel : Nat) (l : List Char) : List Char :=
  match fuel with
  | 0 => l
  | fuel' + 1 =>
      match l with
      | [] => []
      | c :: rest =>
          if c == '\n' then
            let run := 1 + (rest.takeWhile (fun d => d == '\n')).length
            if 3 ≤ run then '\n' :: '\n' :: collapseNlGo fuel' (rest.drop (run - 1))
            else c :: collapseNlGo fuel' rest
          else c :: collapseNlGo fuel' rest

/-- collapse_extra_newlines: re.sub(r"\n{3,}", "\n\n", wikitext). -/
def collapse_extra_newlines (w : String) : String :=
  String.mk (collapseNlGo (w.data.length + 1) w.data)

/-- _is_citation_body. -/
def is_citation_body (body : List Char) : Bool :=
  let cand := stripWS body
  if cand.isEmpty then false
  else
    let c2 := stripWS (rstripChar rb (lstripChar lb cand))
    if c2.isEmpty then false else looks_like_citation_template c2

/-- The parts/cursor loop of strip_whitespace_before_citation_refs over the
REF_CITE_RE matches. -/
def stripWsGo (l : List Char) : Nat → List (Nat × Nat × Nat) → List Char
  | cursor, [] => l.drop cursor
  | cursor, (s, bs, e) :: rest =>
      let body := slice l bs (e - 6)
      let gap := slice l cursor s
      let tws := (gap.reverse.takeWhile pyIsSpace).length
      let blockStart := s - tws
      if is_citation_body body && blockStart != s &&
          !(stripWS (l.take blockStart)).isEmpty then
        gap.take (gap.length - tws) ++ slice l s e ++ stripWsGo l e rest
      else slice l cursor e ++ stripWsGo l e rest

/-- strip_whitespace_before_citation_refs. -/
def strip_whitespace_before_citation_refs (w : String) : String :=
  if containsSub w.data "<ref".data then
    String.mk (stripWsGo w.data 0 (refCiteMatches w.data))
  else w

/-- The lazy ".*?===" of H3_HEADING_RE: smallest k of non-newline characters
after which "===" follows. -/
def h3FindClose (k : Nat) : List Char → Option Nat
  | [] => none
  | c :: rest =>
      if "===".data.isPrefixOf (c :: rest) then some k
      else if c == '\n' then none
      else h3FindClose (k + 1) rest

/-- The greedy-with-backtracking r"\s*" of H3_HEADING_RE followed by
[^=\n].*?===: w counts the whitespace characters consumed, largest first. -/
def h3TryWs (s0 : List Char) : Nat → Option Nat
  | 0 =>
      (match s0 with
       | c :: r2 =>
           if c != '=' && c != '\n' then
             match h3FindClose 0 r2 with
             | some k => some (0 + 1 + k + 3)
             | none => none
           else none
       | [] => none)
  | w + 1 =>
      (match s0.drop (w + 1) with
       | c :: r2 =>
           if c != '=' && c != '\n' then
             match h3FindClose 0 r2 with
             | some k => some ((w + 1) + 1 + k + 3)
             | none => h3TryWs s0 w
           else h3TryWs s0 w
       | [] => h3TryWs s0 w)

/-- Attempt of H3_HEADING_RE = r"^(===\s*[^=\n].*?===)\s*" at '^' position p;
returns the match end (after the trailing whitespace run). -/
def h3TryAt (l : List Char) (p : Nat) : Option Nat :=
  if "===".data.isPrefixOf (l.drop p) then
    let s0 := (l.drop p).drop 3
    match h3TryWs s0 ((s0.takeWhile pyIsSpace).length) with
    | some core => some (p + 3 + core + ((s0.drop core).takeWhile pyIsSpace).length)
    | none => none
  else none

/-- finditer for H3_HEADING_RE: (start, end) pairs, non-overlapping. -/
def h3ScanAux (l : List Char) (cursor : Nat) : List Nat → List (Nat × Nat)
  | [] => []
  | p :: rest =>
      if p < cursor then h3ScanAux l cursor rest
      else
        match h3TryAt l p with
        | some e => (p, e) :: h3ScanAux l e rest
        | none => h3ScanAux l cursor rest

def h3Matches (l : List Char) : List (Nat × Nat) := h3ScanAux l 0 (lineStarts l)

/-- Anchored match of REF_BLOCK_RE = r"<ref[^>]*>.*?</ref>|<ref[^>]*/>" at the
head of l: the full form is tried first, then the self-closing form (whose
first '>' must be preceded by '/').  Returns the match length. -/
def refBlockMatch (l : List Char) : Option Nat :=
  if ciPrefix "<ref".data l then
    match (l.drop 4).findIdx? (fun c => c == '>') with
    | some j =>
        (match findSubCI "</ref>".data ((l.drop 4).drop (j + 1)) with
         | some k => some (4 + j + 1 + k + 6)
         | none =>
             if 0 < j &&
                 (match ((l.drop 4).drop (j - 1)).head? with
                  | some '/' => true
                  | _ => false) then
               some (4 + j + 1)
             else none)
    | none => none
  else none

/-- _extract_leading_refs: collect the leading ref blocks after a heading,
skipping whitespace, and the index just past them. -/
def extractRefsGo (fuel : Nat) (block : List Char) (idx : Nat)
    (acc : List (List Char)) : List (List Char) × Nat :=
  match fuel with
  | 0 => (acc.reverse, idx)
  | fuel' + 1 =>
      let ws := ((block.drop idx).takeWhile pyIsSpace).length
      let idx' := idx + ws
      match refBlockMatch (block.drop idx') with
      | some len =>
          extractRefsGo fuel' block (idx' + len) (slice block idx' (idx' + len) :: acc)
      | none => (acc.reverse, idx')

def extractLeadingRefs (block : List Char) : List (List Char) × Nat :=
  extractRefsGo (block.length + 1) block 0 []

/-- re.search(r"\n\s*\n", remaining): position of the first newline that is
followed, after whitespace only, by another newline. -/
def paraBreakAux (i : Nat) : List Char → Option Nat
  | [] => none
  | '\n' :: rest =>
      if (rest.takeWhile pyIsSpace).contains '\n' then some i
      else paraBreakAux (i + 1) rest
  | _ :: rest => paraBreakAux (i + 1) rest

def paraBreakPos (l : List Char) : Option Nat := paraBreakAux 0 l

/-- Punctuation after which no space is inserted before relocated refs. -/
def noSpacePunct (c : Char) : Bool :=
  c == '.' || c == ',' || c == ';' || c == ':' || c == ')' || c == ']'

/-- The per-heading block rewrite of move_heading_refs_to_first_paragraph. -/
def moveBlockFix (heading_text block : List Char) : List Char :=
  let er := extractLeadingRefs block
  if er.1.isEmpty then heading_text ++ block
  else
    let remaining := block.drop er.2
    if (stripWS remaining).isEmpty then heading_text ++ block
    else
      let paraEnd := (paraBreakPos remaining).getD remaining.length
      let firstP := remaining.take paraEnd
      let restR := remaining.drop paraEnd
      let base := rstripWS firstP
      let tws := firstP.drop base.length
      let insertion := er.1.flatten
      let needsSpace := !base.isEmpty &&
        (match base.getLast? with
         | some c => !(c == ' ' || c == '\n') && !(noSpacePunct c)
         | none => false)
      let insertion' := if needsSpace then ' ' :: insertion else insertion
      heading_text ++ base ++ insertion' ++ tws ++ restR

/-- The block loop of move_heading_refs_to_first_paragraph. -/
def moveGo (l : List Char) : List (Nat × Nat) → Nat → List Char
  | [], cursor => l.drop cursor
  | (hs, he) :: rest, cursor =>
      let nextStart := match rest.head? with
        | some q => q.1
        | none => l.length
      slice l cursor hs ++ moveBlockFix (slice l hs he) (slice l he nextStart) ++
        moveGo l rest nextStart

/-- move_heading_refs_to_first_paragraph. -/
def move_heading_refs_to_first_paragraph (w : String) : String :=
  if !(containsSub w.data "===".data) || !(containsSub w.data "<ref".data) then w
  else
    let ms := h3Matches w.data
    if ms.isEmpty then w
    else String.mk (moveGo w.data ms 0)

/-- Anchored WIKILINK_RE match: target, optional display, total length. -/
def wikilinkTryAt (l : List Char) : Option (List Char × Option (List Char) × Nat) :=
  if "[[".data.isPrefixOf l then
    let r := l.drop 2
    let g1 := r.takeWhile (fun c => c != ']' && c != '|')
    if g1.isEmpty then none
    else
      let r2 := r.drop g1.length
      match r2 with
      | '|' :: r3 =>
          let g3 := r3.takeWhile (fun c => c != ']')
          if g3.isEmpty then none
          else if "]]".data.isPrefixOf (r3.drop g3.length) then
            some (g1, some g3, 2 + g1.length + 1 + g3.length + 2)
          else none
      | _ =>
          if "]]".data.isPrefixOf r2 then some (g1, none, 2 + g1.length + 2) else none
  else none

/-- finditer for WIKILINK_RE: (target, display option, whole match text). -/
def wikilinkScan (fuel : Nat) (l : List Char) :
    List (List Char × Option (List Char) × List Char) :=
  match fuel with
  | 0 => []
  | fuel' + 1 =>
      match l with
      | [] => []
      | _ :: tail =>
          match wikilinkTryAt l with
          | some (g1, g3, len) => (g1, g3, l.take len) :: wikilinkScan fuel' (l.drop len)
          | none => wikilinkScan fuel' tail

def wikilinkMatches (l : List Char) : List (List Char × Option (List Char) × List Char) :=
  wikilinkScan (l.length + 1) l

/-- link_entries of restore_wikilinks_from_original: (display, link markup). -/
def linkEntries (orig : List Char) : List (List Char × List Char) :=
  (wikilinkMatches orig).filterMap (fun q =>
    let target := stripWS q.1
    let display := match q.2.1 with
      | some d => stripWS d
      | none => target
    if target.isEmpty || display.isEmpty then none else some (display, q.2.2))

/-- re.search(r"\[\[[^\]]*?D[^\]]*?\]\]", s): D occurs inside some
bracket-free window of a wikilink. -/
def linkedSearch (s d : List Char) : Bool :=
  (subOccs d s).any (fun j =>
    ((List.range j).any (fun i =>
        "[[".data.isPrefixOf (s.drop i) && i + 2 ≤ j &&
        (slice s (i + 2) j).all (fun c => c != ']'))) &&
    (let rest := s.drop (j + d.length)
     let a := rest.takeWhile (fun c => c != ']')
     "]]".data.isPrefixOf (rest.drop a.length)))

/-- First position where r"(?<!\[\[)D(?![^\[]*\]\])" matches: an occurrence of
D not immediately preceded by "[[" and not followed by "]]" before any '['. -/
def subnOncePos (s d : List Char) : Option Nat :=
  (subOccs d s).find? (fun j =>
    !(2 ≤ j && "[[".data.isPrefixOf (s.drop (j - 2))) &&
    !(containsSub ((s.drop (j + d.length)).takeWhile (fun c => c != '[')) "]]".data))

/-- One iteration of the entry loop of restore_wikilinks_from_original. -/
def restoreEntry (fixed : List Char) (entry : List Char × List Char) : List Char :=
  if !(containsSub fixed entry.1) then fixed
  else if !(wikilinkMatches fixed).isEmpty && linkedSearch fixed entry.1 then fixed
  else
    match subnOncePos fixed entry.1 with
    | some j => fixed.take j ++ entry.2 ++ fixed.drop (j + entry.1.length)
    | none => fixed

/-- restore_wikilinks_from_original. -/
def restore_wikilinks_from_original (original updated : String) : String :=
  String.mk ((linkEntries original.data).foldl restoreEntry updated.data)

/-- fix_demographics_section_wikitext: the fixed sequence of the six text
passes, followed by wikilink restoration when an original snapshot is given (a
None or empty snapshot is falsy in the source and skips the pass). -/
def fix_demographics_section_wikitext (sectionText : String) (original : Option String) :
    String :=
  let f1 := fix_us_census_population_align sectionText
  let f2 := fix_census_section_order f1
  let f3 := enforce_ref_citation_template_braces f2
  let f4 := strip_whitespace_before_citation_refs f3
  let f5 := move_heading_refs_to_first_paragraph f4
  let f6 := collapse_extra_newlines f5
  match original with
  | some o => if o ≠ "" then restore_wikilinks_from_original o f6 else f6
  | none => f6

/-- The enumerate loop of fix_demographics_section_in_article: the first entry
that is not sentinel-titled and is headed "Demographics". -/
def findDemographicsIdxAux (i : Nat) : List Sect → Option (Nat × Sect)
  | [] => none
  | e :: rest =>
      if sentinelTitle (sectTitle e) || sectTitle e != "Demographics" then
        findDemographicsIdxAux (i + 1) rest
      else some (i, e)

def findDemographicsIdx (secs : List Sect) : Option (Nat × Sect) :=
  findDemographicsIdxAux 0 secs

/-- The replacement-entry search over the re-parsed fixed text. -/
def firstNonSentinel : List Sect → Option Sect
  | [] => none
  | e :: rest => if sentinelTitle (sectTitle e) then firstNonSentinel rest else some e

/-- fix_demographics_section_in_article.  Python exceptions (the ValueError of
a headingless fixed text, and the join TypeError of serializing a
sentinel-titled interior node) are modelled as errors. -/
def fix_demographics_section_in_article (article : String) (original : Option String) :
    Except String String :=
  let secs := parse_wikitext article
  match findDemographicsIdx secs with
  | none => .ok article
  | some (i, entry) =>
      match to_wikitext [entry] with
      | none => .error "TypeError"
      | some st =>
          let fixed := fix_demographics_section_wikitext st original
          if fixed == st then .ok article
          else
            match firstNonSentinel (parse_wikitext fixed) with
            | none => .error "Fixed demographics text did not include a section heading."
            | some rep =>
                match to_wikitext (secs.set i rep) with
                | none => .error "TypeError"
                | some out => .ok out

/-- A CITATION_DETAILS entry. -/
structure CitDetail where
  name : String
  template : String
  default_url : String

def PL_ENDPOINT : String := "https://api.census.gov/data/2020/dec/pl"

def DP_ENDPOINT : String := "https://api.census.gov/data/2020/dec/dp"

def DHC_ENDPOINT : String := "https://api.census.gov/data/2020/dec/dhc"

def PL_FIELDS : String :=
  "NAME,P1_001N,P1_003N,P1_004N,P1_005N,P1_006N,P1_007N,P1_008N,P1_009N,P2_001N,P2_002N,H1_001N,H1_002N"

def DP_FIELDS : String :=
  "NAME,DP1_0021P,DP1_0024P,DP1_0025C,DP1_0049C,DP1_0045C,DP1_0069C,DP1_0073C,DP1_0125P,DP1_0126P,DP1_0129P,DP1_0133P,DP1_0137P,DP1_0138P,DP1_0139P,DP1_0141P,DP1_0142P,DP1_0143P,DP1_0145P,DP1_0146P,DP1_0147C,DP1_0148C,DP1_0149C,DP1_0156C,DP1_0157C,DP1_0158C,DP1_0159P,DP1_0160P"

def DHC_FIELDS : String := "NAME,P2_002N,P2_003N"

/-- CITATION_DETAILS of census_api/constants.py (dict access is modelled with
an Option; the only keys used by the source are the three below). -/
def CITATION_DETAILS (key : String) : Option CitDetail :=
  if key == "dp" then
    some { name := "Census2020DP",
           template := "\x7b\x7bcite web|title=2020 Decennial Census Demographic Profile (DP1)|url=\x7burl\x7d|website=United States Census Bureau|year=2021|access-date=\x7baccess_date\x7d|df=mdy\x7d\x7d",
           default_url := DP_ENDPOINT }
  else if key == "pl" then
    some { name := "Census2020PL",
           template := "\x7b\x7bcite web|title=2020 Decennial Census Redistricting Data (Public Law 94-171)|url=\x7burl\x7d|website=United States Census Bureau|year=2021|access-date=\x7baccess_date\x7d|df=mdy\x7d\x7d",
           default_url := PL_ENDPOINT }
  else if key == "dhc" then
    some { name := "Census2020DHC",
           template := "\x7b\x7bcite web|title=2020 Decennial Census Demographic and Housing Characteristics (DHC)|url=\x7burl\x7d|website=United States Census Bureau|year=2023|access-date=\x7baccess_date\x7d|df=mdy\x7d\x7d",
           default_url := DHC_ENDPOINT }
  else none

/-- CITATION_SOURCES of census_api/constants.py. -/
def CITATION_SOURCES : List (String × List String) :=
  [("age_65_plus_percent", ["dp"]),
   ("age_median_years", ["dp"]),
   ("age_under_18_percent", ["dp"]),
   ("average_family_size", ["dp"]),
   ("average_household_size", ["dp"]),
   ("female_householder_no_spouse_percent", ["dp"]),
   ("male_householder_no_spouse_percent", ["dp"]),
   ("households_with_children_under_18_percent", ["dp"]),
   ("living_alone_65_plus_households_percent", ["dp"]),
   ("married_couple_households_percent", ["dp"]),
   ("one_person_households_percent", ["dp"]),
   ("group_quarters_percent", ["dp"]),
   ("institutional_group_quarters_percent", ["dp"]),
   ("noninstitutional_group_quarters_percent", ["dp"]),
   ("homeowner_vacancy_rate_percent", ["dp"]),
   ("rental_vacancy_rate_percent", ["dp"]),
   ("owner_occupied_percent", ["dp"]),
   ("renter_occupied_percent", ["dp"]),
   ("vacant_units_percent", ["dp"]),
   ("race_white_percent", ["pl"]),
   ("race_black_percent", ["pl"]),
   ("race_aian_percent", ["pl"]),
   ("race_asian_percent", ["pl"]),
   ("race_nhpi_percent", ["pl"]),
   ("race_some_other_percent", ["pl"]),
   ("race_two_or_more_percent", ["pl"]),
   ("hispanic_any_race_percent", ["pl"]),
   ("sex_ratio_males_per_100_females", ["dp"]),
   ("sex_ratio_18_plus_males_per_100_females", ["dp"]),
   ("total_families", ["dp"]),
   ("total_households", ["dp"]),
   ("total_housing_units", ["dp"]),
   ("total_population", ["pl", "dp"]),
   ("urban_population_percent", ["dhc"]),
   ("rural_population_percent", ["dhc"])]

/-- CITATION_SOURCES.get(key, []). -/
def citationSourcesGet (k : String) : List String := (CITATION_SOURCES.lookup k).getD []

/-- _REF_NAME_TO_SOURCE, derived in the source from CITATION_DETAILS. -/
def REF_NAME_TO_SOURCE (name : String) : Option String :=
  if name == "Census2020DP" then some "dp"
  else if name == "Census2020PL" then some "pl"
  else if name == "Census2020DHC" then some "dhc"
  else none

/-- Replace every occurrence of pat by repl (str.format on the citation
templates, one placeholder at a time). -/
def replaceAllSub (fuel : Nat) (pat repl l : List Char) : List Char :=
  match fuel with
  | 0 => l
  | fuel' + 1 =>
      match l with
      | [] => []
      | c :: rest =>
          if pat.isPrefixOf (c :: rest) && !pat.isEmpty then
            repl ++ replaceAllSub fuel' pat repl ((c :: rest).drop pat.length)
          else c :: replaceAllSub fuel' pat repl rest

/-- template.format(url=..., access_date=...). -/
def pyFormat (tpl url ad : String) : String :=
  String.mk (replaceAllSub (tpl.data.length + url.data.length + 1)
    "\x7baccess_date\x7d".data ad.data
    (replaceAllSub (tpl.data.length + 1) "\x7burl\x7d".data url.data tpl.data))

/-- UTF-8 bytes of a character, for percent-encoding. -/
def utf8Bytes (c : Char) : List Nat :=
  let n := c.toNat
  if n < 0x80 then [n]
  else if n < 0x800 then [0xC0 + n / 0x40, 0x80 + n % 0x40]
  else if n < 0x10000 then [0xE0 + n / 0x1000, 0x80 + (n / 0x40) % 0x40, 0x80 + n % 0x40]
  else [0xF0 + n / 0x40000, 0x80 + (n / 0x1000) % 0x40, 0x80 + (n / 0x40) % 0x40, 0x80 + n % 0x40]

def hexDigit (n : Nat) : Char :=
  if n < 10 then Char.ofNat ('0'.toNat + n) else Char.ofNat ('A'.toNat + n - 10)

def pctByte (b : Nat) : List Char := ['%', hexDigit (b / 16), hexDigit (b % 16)]

/-- urllib.parse.quote with a safe set: unreserved characters and the safe
characters pass through, everything else is percent-encoded. -/
def pyQuote (safe : List Char) (s : String) : String :=
  String.mk (s.data.flatMap (fun c =>
    if c.isAlphanum || c == '_' || c == '.' || c == '-' || c == '~' || safe.contains c
    then [c]
    else (utf8Bytes c).flatMap pctByte))

/-- str.zfill for the unsigned FIPS codes of the source. -/
def zfill (n : Nat) (s : String) : String :=
  if s.data.length < n then String.mk (List.replicate (n - s.data.length) '0' ++ s.data)
  else s

/-- build_census_api_url; an unsupported source key raises ValueError,
modelled by none. -/
def build_census_api_url (sourceKey state_fips county_fips : String) : Option String :=
  let state := zfill 2 state_fips
  let county := zfill 3 county_fips
  let ef : Option (String × String) :=
    if sourceKey == "dp" then some (DP_ENDPOINT, DP_FIELDS)
    else if sourceKey == "pl" then some (PL_ENDPOINT, PL_FIELDS)
    else if sourceKey == "dhc" then some (DHC_ENDPOINT, DHC_FIELDS)
    else none
  match ef with
  | none => none
  | some (endpoint, fields) =>
      some (endpoint ++ "?get=" ++ pyQuote [',', '_'] fields ++ "&for=" ++
        pyQuote ['/'] ("county:" ++ county) ++ "&in=" ++ pyQuote ['/'] ("state:" ++ state))

/-- _ensure_template_closed (identical in census_api/utils.py and
county/generate_county_paragraphs.py): strip the edges, drop every leading
brace and trailing brace, and wrap with exactly two of each. -/
def ensure_template_closed (t : String) : String :=
  String.mk ([lb, lb] ++ stripWS (rstripChar rb (lstripChar lb (stripWS t.data))) ++ [rb, rb])

/-- Python truthiness of an optional string. -/
def pyTruthy : Option String → Bool
  | some v => v ≠ ""
  | none => false

/-- build_census_ref of census_api/utils.py, with the access date (which the
source takes from datetime.date.today()) passed as a parameter. -/
def build_census_ref (sourceKey : String) (url : Option String) (access_date : String) :
    Option String :=
  match CITATION_DETAILS sourceKey with
  | none => none
  | some d =>
      let resolved := match url with
        | some u => if u ≠ "" then u else d.default_url
        | none => d.default_url
      some ("<ref name=\"" ++ d.name ++ "\">" ++
        ensure_template_closed (pyFormat d.template resolved access_date) ++ "</ref>")

/-- get_dp_ref. -/
def get_dp_ref (url : Option String) (access_date : String) (state_fips county_fips : Option String) :
    Option String :=
  let url' := if !(pyTruthy url) && pyTruthy state_fips && pyTruthy county_fips then
      build_census_api_url "dp" (state_fips.getD "") (county_fips.getD "")
    else url
  build_census_ref "dp" url' access_date

/-- get_pl_ref. -/
def get_pl_ref (url : Option String) (access_date : String) (state_fips county_fips : Option String) :
    Option String :=
  let url' := if !(pyTruthy url) && pyTruthy state_fips && pyTruthy county_fips then
      build_census_api_url "pl" (state_fips.getD "") (county_fips.getD "")
    else url
  build_census_ref "pl" url' access_date

/-- get_dhc_ref. -/
def get_dhc_ref (url : Option String) (access_date : String) (state_fips county_fips : Option String) :
    Option String :=
  let url' := if !(pyTruthy url) && pyTruthy state_fips && pyTruthy county_fips then
      build_census_api_url "dhc" (state_fips.getD "") (county_fips.getD "")
    else url
  build_census_ref "dhc" url' access_date

/-- _build_full_census_ref dispatching through _REF_BUILDERS. -/
def build_full_census_ref (ref_name : String) (state_fips county_fips url_override : Option String)
    (access_date : String) : Option String :=
  if ref_name == "Census2020DP" then get_dp_ref url_override access_date state_fips county_fips
  else if ref_name == "Census2020PL" then get_pl_ref url_override access_date state_fips county_fips
  else if ref_name == "Census2020DHC" then get_dhc_ref url_override access_date state_fips county_fips
  else none

/-- A match of _CENSUS_REF_PATTERN: span, captured name, optional body, and
the matched text. -/
structure CMatch where
  start : Nat
  stop : Nat
  name : List Char
  body : Option (List Char)
  whole : List Char

/-- Anchored attempt of _CENSUS_REF_PATTERN =
r'<ref\s+name="(?P<name>Census2020(?:DP|PL|DHC))"\s*(?:>(?P<body>.*?)</ref>|/>)'
(IGNORECASE, DOTALL): returns name, optional body and total length. -/
def censusRefTryAt (l : List Char) : Option (List Char × Option (List Char) × Nat) :=
  if ciPrefix "<ref".data l then
    let r := l.drop 4
    let ws := r.takeWhile pyIsSpace
    if ws.isEmpty then none
    else
      let r1 := r.drop ws.length
      if ciPrefix "name=\"".data r1 then
        let r2 := r1.drop 6
        if ciPrefix "census2020".data r2 then
          let r3 := r2.drop 10
          let dOpt : Option Nat :=
            if ciPrefix "dp".data r3 then some 2
            else if ciPrefix "pl".data r3 then some 2
            else if ciPrefix "dhc".data r3 then some 3
            else none
          match dOpt with
          | none => none
          | some dl =>
              let nameChars := r2.take (10 + dl)
              let r4 := r2.drop (10 + dl)
              match r4 with
              | '"' :: r5 =>
                  let ws2 := r5.takeWhile pyIsSpace
                  let r6 := r5.drop ws2.length
                  let consumed := 4 + ws.length + 6 + 10 + dl + 1 + ws2.length
                  (match r6 with
                   | '>' :: r7 =>
                       (match findSubCI "</ref>".data r7 with
                        | some k => some (nameChars, some (r7.take k), consumed + 1 + k + 6)
                        | none => none)
                   | '/' :: '>' :: _ => some (nameChars, none, consumed + 2)
                   | _ => none)
              | _ => none
        else none
      else none
  else none

/-- finditer for _CENSUS_REF_PATTERN. -/
def censusRefScan (fuel pos : Nat) (l : List Char) : List CMatch :=
  match fuel with
  | 0 => []
  | fuel' + 1 =>
      match l with
      | [] => []
      | _ :: tail =>
          match censusRefTryAt l with
          | some (nm, body, len) =>
              { start := pos, stop := pos + len, name := nm, body := body,
                whole := l.take len } :: censusRefScan fuel' (pos + len) (l.drop len)
          | none => censusRefScan fuel' (pos + 1) tail

def censusRefMatches (l : List Char) : List CMatch := censusRefScan (l.length + 1) 0 l

/-- re.search(r"\{\{.*?\}\}", body, DOTALL): first "\x7b\x7b", then the lazy
body up to and including the first "\x7d\x7d". -/
def findTemplateInBody (b : List Char) : Option (List Char) :=
  match findSub [lb, lb] b with
  | none => none
  | some i =>
      match findSub [rb, rb] (b.drop (i + 2)) with
      | none => none
      | some k => some (slice b i (i + 2 + k + 2))

/-- One attempt of re.search(r"url\s*=\s*[^|}]*\?", IGNORECASE) at a
position. -/
def urlQueryAt (l : List Char) : Bool :=
  if ciPrefix "url".data l then
    match (l.drop 3).dropWhile pyIsSpace with
    | '=' :: r2 =>
        ((r2.dropWhile pyIsSpace).takeWhile (fun c => c != '|' && c != rb)).contains '?'
    | _ => false
  else false

def urlQuerySearch : List Char → Bool
  | [] => false
  | c :: rest => urlQueryAt (c :: rest) || urlQuerySearch rest

/-- The deep-link test of expand_first_census_refs for a template text. -/
def isCanonicalTemplate (t : List Char) : Bool :=
  urlQuerySearch t || containsSub t "for=".data || containsSub t "%3A".data

/-- canonical_template_by_name: the first qualifying full body per name. -/
def canonicalMapGo (acc : List (String × List Char)) : List CMatch → List (String × List Char)
  | [] => acc
  | m :: rest =>
      match m.body with
      | none => canonicalMapGo acc rest
      | some b =>
          match findTemplateInBody b with
          | none => canonicalMapGo acc rest
          | some t =>
              if ((acc.lookup (String.mk m.name)).isSome) then canonicalMapGo acc rest
              else if isCanonicalTemplate t then
                canonicalMapGo (acc ++ [(String.mk m.name, t)]) rest
              else canonicalMapGo acc rest

def canonicalTemplates (ms : List CMatch) : List (String × List Char) := canonicalMapGo [] ms

/-- _strip_template_braces. -/
def strip_template_braces (t : List Char) : List Char :=
  stripWS (rstripChar rb (lstripChar lb (stripWS t)))

/-- The replacer closure of expand_first_census_refs on one match, with the
seen set threaded explicitly; d is the access date the source reads from
datetime.date.today().  (The canonical-template replacement branch of the
source is kept although it is unreachable: a name with a canonical template is
always in names_with_full and returns unchanged first.) -/
def expandReplacer (canon : List (String × List Char)) (sf cf : Option String) (d : String)
    (seen : List String) (m : CMatch) : List Char × List String :=
  let nm := String.mk m.name
  let url_override : Option String :=
    match REF_NAME_TO_SOURCE nm with
    | some sk =>
        if pyTruthy sf && pyTruthy cf then build_census_api_url sk (sf.getD "") (cf.getD "")
        else none
    | none => none
  if seen.contains nm then (m.whole, seen)
  else
    let seen' := seen ++ [nm]
    match url_override with
    | some u =>
        (match build_full_census_ref nm sf cf (some u) d with
         | some fr => (fr.data, seen')
         | none => (m.whole, seen'))
    | none =>
        if ((canon.lookup nm).isSome) then (m.whole, seen')
        else
          match canon.lookup nm with
          | some t =>
              (("<ref name=\"" ++ nm ++ "\">").data ++ [lb, lb] ++
                strip_template_braces t ++ [rb, rb] ++ "</ref>".data, seen')
          | none =>
              (match build_full_census_ref nm sf cf none d with
               | some fr => (fr.data, seen')
               | none => (m.whole, seen'))

/-- The per-match replacement strings of _CENSUS_REF_PATTERN.sub, in order. -/
def expandPieces (canon : List (String × List Char)) (sf cf : Option String) (d : String)
    (seen : List String) : List CMatch → List (List Char)
  | [] => []
  | m :: rest =>
      (expandReplacer canon sf cf d seen m).1 ::
        expandPieces canon sf cf d (expandReplacer canon sf cf d seen m).2 rest

/-- Reassembly of _CENSUS_REF_PATTERN.sub from the pieces. -/
def expandAssemble (l : List Char) : Nat → List CMatch → List (List Char) → List Char
  | cursor, [], _ => l.drop cursor
  | cursor, m :: rest, p :: ps => slice l cursor m.start ++ p ++ expandAssemble l m.stop rest ps
  | cursor, _ :: _, [] => l.drop cursor

/-- expand_first_census_refs, with the access date passed as a parameter. -/
def expand_first_census_refs (w : String) (sf cf : Option String) (d : String) : String :=
  let ms := censusRefMatches w.data
  if ms.isEmpty then w
  else
    String.mk (expandAssemble w.data 0 ms
      (expandPieces (canonicalTemplates ms) sf cf d [] ms))

/-- Set semantics: drop all but the last occurrence of each element. -/
def dedupLast : List String → List String
  | [] => []
  | x :: rest => if rest.contains x then dedupLast rest else x :: dedupLast rest

/-- Lexicographic comparison of character lists by code point, as Python
compares strings. -/
def chListLe : List Char → List Char → Bool
  | [], _ => true
  | _ :: _, [] => false
  | a :: as, b :: bs =>
      if a.val < b.val then true
      else if b.val < a.val then false
      else chListLe as bs

def strLeB (a b : String) : Bool := chListLe a.data b.data

def insertSorted (x : String) : List String → List String
  | [] => [x]
  | y :: rest => if strLeB x y then x :: y :: rest else y :: insertSorted x rest

/-- Insertion sort by Python's string order. -/
def sortStr : List String → List String
  | [] => []
  | x :: rest => insertSorted x (sortStr rest)

/-- sorted(sources): the union of the mapped sources of the keys and the
extra sources, deduplicated and sorted lexicographically. -/
def sortedSources (keys : List String) (extra : Option (List String)) : List String :=
  sortStr (dedupLast ((extra.getD []) ++ keys.flatMap citationSourcesGet))

theorem mem_insertSorted (x y : String) :
    ∀ l, y ∈ insertSorted x l ↔ y = x ∨ y ∈ l := by
  intro l
  induction l with
  | nil => simp [insertSorted]
  | cons z rest ih =>
      unfold insertSorted
      split
      · simp
      · simp only [List.mem_cons, ih]
        tauto

theorem nodup_insertSorted (x : String) :
    ∀ l, l.Nodup → x ∉ l → (insertSorted x l).Nodup := by
  intro l
  induction l with
  | nil => intro _ _; simp [insertSorted]
  | cons z rest ih =>
      intro hnd hx
      unfold insertSorted
      split
      · exact List.nodup_cons.mpr ⟨hx, hnd⟩
      · obtain ⟨hz, hrest⟩ := List.nodup_cons.mp hnd
        refine List.nodup_cons.mpr ⟨?_, ih hrest (fun hh => hx (by simp [hh]))⟩
        rw [mem_insertSorted]
        rintro (hzx | hzr)
        · exact hx (by simp [hzx])
        · exact hz hzr

theorem mem_sortStr_aux : ∀ (l : List String) (y : String), y ∈ sortStr l → y ∈ l := by
  intro l
  induction l with
  | nil => intro y h; simp [sortStr] at h
  | cons x rest ih =>
      intro y h
      unfold sortStr at h
      rcases (mem_insertSorted x y (sortStr rest)).mp h with h1 | h2
      · simp [h1]
      · simp [ih y h2]

theorem nodup_sortStr : ∀ l : List String, l.Nodup → (sortStr l).Nodup := by
  intro l
  induction l with
  | nil => intro _; simp [sortStr]
  | cons x rest ih =>
      intro hnd
      obtain ⟨hx, hrest⟩ := List.nodup_cons.mp hnd
      unfold sortStr
      refine nodup_insertSorted x _ (ih hrest) ?_
      intro hmem
      exact hx (mem_sortStr_aux rest x hmem)

theorem mem_dedupLast_aux : ∀ (l : List String) (y : String), y ∈ dedupLast l → y ∈ l := by
  intro l
  induction l with
  | nil => intro y h; simp [dedupLast] at h
  | cons x rest ih =>
      intro y h
      unfold dedupLast at h
      split at h
      · simp [ih y h]
      · rcases List.mem_cons.mp h with h1 | h2
        · simp [h1]
        · simp [ih y h2]

theorem nodup_dedupLast : ∀ l : List String, (dedupLast l).Nodup := by
  intro l
  induction l with
  | nil => simp [dedupLast]
  | cons x rest ih =>
      unfold dedupLast
      split
      · exact ih
      · rename_i hc
        refine List.nodup_cons.mpr ⟨?_, ih⟩
        intro hmem
        exact hc (by
          have := mem_dedupLast_aux rest x hmem
          simpa [List.elem_iff] using this)

theorem nodup_sortedSources (keys : List String) (extra : Option (List String)) :
    (sortedSources keys extra).Nodup :=
  nodup_sortStr _ (nodup_dedupLast _)

/-- seen_sources.add(source). -/
def addSeen (seen : List String) (s : String) : List String :=
  if seen.contains s then seen else seen ++ [s]

/-- Concatenation of the emitted ref tags. -/
def concatAll : List String → String
  | [] => ""
  | s :: rest => s ++ concatAll rest

/-- The full ref _build_citation emits for a source: the resolved url (the
stored url when truthy, else the default) formatted into the template, brace
normalized, wrapped in a named ref tag. -/
def full_citation_ref (urls : List (String × String)) (d s : String) : String :=
  match CITATION_DETAILS s with
  | some detail =>
      let url := match urls.lookup s with
        | some u => if u ≠ "" then u else detail.default_url
        | none => detail.default_url
      "<ref name=\"" ++ detail.name ++ "\">" ++
        ensure_template_closed (pyFormat detail.template url d) ++ "</ref>"
  | none => ""

/-- The self-closing short ref for a source. -/
def short_citation_ref (s : String) : String :=
  match CITATION_DETAILS s with
  | some detail => "<ref name=\"" ++ detail.name ++ "\"/>"
  | none => ""

/-- The per-source loop of _build_citation: seen is threaded (Python mutates
the caller's set); the dict access CITATION_DETAILS[source] raises KeyError
for an unknown source, modelled as an error. -/
def emitLoop (urls : List (String × String)) (ff : Bool) (d : String) :
    List String → List String → Except String (String × List String)
  | seen, [] => .ok ("", seen)
  | seen, s :: rest =>
      match CITATION_DETAILS s with
      | none => .error ("KeyError: " ++ s)
      | some detail =>
          let piece :=
            if ff && !(seen.contains s) then full_citation_ref urls d s
            else "<ref name=\"" ++ detail.name ++ "\"/>"
          match emitLoop urls ff d (addSeen seen s) rest with
          | .error e => .error e
          | .ok q => .ok (piece ++ q.1, q.2)

/-- _build_citation of county/generate_county_paragraphs.py, with the keys as
a list (the Python set only feeds a sorted union), source_urls as an
association list (an absent or empty entry is falsy and falls back to the
default url) and the module-level ACCESS_DATE (today's date) as parameter
d. -/
def build_citation (keys : List String) (seen : List String) (urls : List (String × String))
    (ff : Bool) (extra : Option (List String)) (d : String) :
    Except String (String × List String) :=
  let sources := sortedSources keys extra
  if sources.isEmpty then .ok ("", seen)
  else emitLoop urls ff d seen sources

theorem addSeen_contains_of_ne {seen : List String} {s t : String} (h : t ≠ s) :
    (addSeen seen s).contains t = seen.contains t := by
  unfold addSeen
  split
  · rfl
  · refine Bool.eq_iff_iff.mpr ?_
    simp [List.elem_iff, h]

/-- The emit loop over duplicate-free sources emits, for each source in
order, a full ref exactly when forceFull is set and the source was not in the
initial seen set, and a short ref otherwise, recording every source in
seen. -/
theorem emitLoop_characterization (urls : List (String × String)) (ff : Bool) (d : String) :
    ∀ (sources : List String) (seen : List String), sources.Nodup →
      (∀ s ∈ sources, (CITATION_DETAILS s).isSome) →
      emitLoop urls ff d seen sources =
        .ok (concatAll (sources.map (fun s =>
            if ff && !(seen.contains s) then full_citation_ref urls d s
            else short_citation_ref s)),
          sources.foldl addSeen seen) := by
  intro sources
  induction sources with
  | nil => intro seen _ _; simp [emitLoop, concatAll]
  | cons s rest ih =>
      intro seen hnd hknown
      have hs : (CITATION_DETAILS s).isSome := hknown s (by simp)
      obtain ⟨detail, hdet⟩ := Option.isSome_iff_exists.mp hs
      have hrestNd : rest.Nodup := (List.nodup_cons.mp hnd).2
      have hsNotIn : s ∉ rest := (List.nodup_cons.mp hnd).1
      have hrest := ih (addSeen seen s) hrestNd (fun t ht => hknown t (by simp [ht]))
      have hmapEq : rest.map (fun t =>
          if ff && !((addSeen seen s).contains t) then full_citation_ref urls d t
          else short_citation_ref t) =
        rest.map (fun t =>
          if ff && !(seen.contains t) then full_citation_ref urls d t
          else short_citation_ref t) := by
        refine List.map_congr_left ?_
        intro t ht
        have hts : t ≠ s := fun hts => hsNotIn (by rwa [hts] at ht)
        rw [addSeen_contains_of_ne hts]
      rw [hmapEq] at hrest
      simp only [emitLoop, hdet, hrest]
      simp [concatAll, short_citation_ref, hdet]

/-- C3 (amended): _build_citation maps the field keys (plus any extra
sources) to their citation sources, sorts and deduplicates them, and emits
for each a full reference exactly when force_full is requested and the source
is not yet in the seen set, and the self-closing short form otherwise; every
emitted source is recorded in seen. -/
theorem C3_build_citation_characterization (keys seen : List String)
    (urls : List (String × String)) (ff : Bool) (extra : Option (List String)) (d : String)
    (hknown : ∀ s ∈ sortedSources keys extra, (CITATION_DETAILS s).isSome) :
    build_citation keys seen urls ff extra d =
      .ok (concatAll ((sortedSources keys extra).map (fun s =>
          if ff && !(seen.contains s) then full_citation_ref urls d s
          else short_citation_ref s)),
        (sortedSources keys extra).foldl addSeen seen) := by
  have hnd : (sortedSources keys extra).Nodup := nodup_sortedSources keys extra
  unfold build_citation
  by_cases hempty : (sortedSources keys extra).isEmpty
  · have h0 : sortedSources keys extra = [] := List.isEmpty_iff.mp hempty
    rw [h0]
    simp [concatAll]
  · simp only [hempty, Bool.false_eq_true, if_false]
    exact emitLoop_characterization urls ff d _ seen hnd hknown

/-- Witness for C3: field key total_population maps to sources dp and pl;
with an empty seen set and force_full requested, both sources get full refs
and both are recorded. -/
theorem C3_build_citation_characterization_witness :
    build_citation ["total_population"] [] [] true none "July 1, 2025" =
      .ok (concatAll ((sortedSources ["total_population"] none).map (fun s =>
          if true && !(([] : List String).contains s) then full_citation_ref [] "July 1, 2025" s
          else short_citation_ref s)),
        (sortedSources ["total_population"] none).foldl addSeen []) :=
  C3_build_citation_characterization ["total_population"] [] [] true none "July 1, 2025"
    (by decide)

/-- Counterexample for C3 as stated: with field keys containing only
total_population and an empty seen set, and force_full not requested, the
first use does not return the full Census2020PL reference the claim promises:
the result contains no full reference at all (no closing ref tag), and it
also covers the dp source, because total_population is mapped to both pl and
dp. -/
theorem C3_emitCitation_counterexample :
    build_citation ["total_population"] [] [] false none "July 1, 2025" =
      .ok ("<ref name=\"Census2020DP\"/><ref name=\"Census2020PL\"/>", ["dp", "pl"]) ∧
    countSubOcc "<ref name=\"Census2020DP\"/><ref name=\"Census2020PL\"/>".data
      "</ref>".data = 0 :=
  ⟨by rfl, by rfl⟩

theorem expandReplacer_of_seen (canon : List (String × List Char)) (sf cf : Option String)
    (d : String) (seen : List String) (m : CMatch) (h : seen.contains (String.mk m.name)) :
    expandReplacer canon sf cf d seen m = (m.whole, seen) := by
  unfold expandReplacer
  dsimp only
  split
  · rfl
  · rename_i hns
    exact absurd h hns

/-- The seen set after the replacer is exactly seen_sources with the name
added (the source adds the name only when it was absent). -/
theorem expandReplacer_snd (canon : List (String × List Char)) (sf cf : Option String)
    (d : String) (seen : List String) (m : CMatch) :
    (expandReplacer canon sf cf d seen m).2 = addSeen seen (String.mk m.name) := by
  unfold expandReplacer addSeen
  dsimp only
  by_cases hs : seen.contains (String.mk m.name) = true
  · simp [hs, List.elem_iff.mp hs]
  · rw [if_neg hs, if_neg hs]
    (repeat' split) <;> rfl

theorem expandReplacer_snd_mono (canon : List (String × List Char)) (sf cf : Option String)
    (d : String) (seen : List String) (m : CMatch) (x : String) (h : seen.contains x) :
    ((expandReplacer canon sf cf d seen m).2).contains x = true := by
  rw [expandReplacer_snd]
  unfold addSeen
  split
  · exact h
  · simp only [List.elem_iff] at h ⊢
    simp [h]

theorem expandReplacer_mem_snd (canon : List (String × List Char)) (sf cf : Option String)
    (d : String) (seen : List String) (m : CMatch) :
    ((expandReplacer canon sf cf d seen m).2).contains (String.mk m.name) = true := by
  rw [expandReplacer_snd]
  unfold addSeen
  split
  · assumption
  · simp [List.elem_iff]

/-- The replacement pieces of every match whose name was already seen, or
already occurred earlier in the match list, are the matched text itself. -/
theorem expandPieces_nonfirst (canon : List (String × List Char)) (sf cf : Option String)
    (d : String) :
    ∀ (ms : List CMatch) (seen : List String) (i : Nat) (mi : CMatch),
      ms.get? i = some mi →
      (seen.contains (String.mk mi.name) = true ∨
        ∃ j mj, j < i ∧ ms.get? j = some mj ∧ mj.name = mi.name) →
      (expandPieces canon sf cf d seen ms).get? i = some mi.whole := by
  intro ms
  induction ms with
  | nil => intro seen i mi hget _; simp at hget
  | cons m rest ih =>
      intro seen i mi hget hcond
      cases i with
      | zero =>
          have hmi : mi = m := by simpa using hget.symm
          subst hmi
          rcases hcond with hseen | ⟨j, mj, hj, _, _⟩
          · simp [expandPieces, expandReplacer_of_seen canon sf cf d seen mi hseen]
          · omega
      | succ i' =>
          simp only [List.get?_cons_succ] at hget
          have hnext : (expandPieces canon sf cf d
              (expandReplacer canon sf cf d seen m).2 rest).get? i' = some mi.whole := by
            refine ih _ i' mi hget ?_
            rcases hcond with hseen | ⟨j, mj, hj, hgetj, hname⟩
            · exact Or.inl (expandReplacer_snd_mono canon sf cf d seen m _ hseen)
            · cases j with
              | zero =>
                  have hmj : mj = m := by simpa using hgetj.symm
                  subst hmj
                  left
                  rw [show String.mk mi.name = String.mk mj.name from by rw [hname]]
                  exact expandReplacer_mem_snd canon sf cf d seen mj
              | succ j' =>
                  right
                  exact ⟨j', mj, by omega, by simpa using hgetj, hname⟩
          simpa [expandPieces] using hnext

/-- The replacement string of the replacer on a not-yet-seen name does not
depend on which seen set it was handed (seen only gates the early return and
threads into the second component). -/
theorem expandReplacer_fst_congr (canon : List (String × List Char)) (sf cf : Option String)
    (d : String) (s1 s2 : List String) (m : CMatch)
    (h1 : s1.contains (String.mk m.name) = false)
    (h2 : s2.contains (String.mk m.name) = false) :
    (expandReplacer canon sf cf d s1 m).1 = (expandReplacer canon sf cf d s2 m).1 := by
  unfold expandReplacer
  dsimp only
  rw [h1, h2, if_neg Bool.false_ne_true, if_neg Bool.false_ne_true]
  (repeat' split) <;> rfl

/-- The replacement piece of a match that is the first occurrence of its name
is the replacer's output on that match. -/
theorem expandPieces_first (canon : List (String × List Char)) (sf cf : Option String)
    (d : String) :
    ∀ (ms : List CMatch) (seen : List String) (i : Nat) (mi : CMatch),
      ms.get? i = some mi →
      seen.contains (String.mk mi.name) = false →
      (∀ j mj, j < i → ms.get? j = some mj → mj.name ≠ mi.name) →
      (expandPieces canon sf cf d seen ms).get? i =
        some (expandReplacer canon sf cf d seen mi).1 := by
  intro ms
  induction ms with
  | nil => intro seen i mi hget _ _; simp at hget
  | cons m rest ih =>
      intro seen i mi hget hseen hfirst
      cases i with
      | zero =>
          have hmi : mi = m := by simpa using hget.symm
          subst hmi
          simp [expandPieces]
      | succ i' =>
          simp only [List.get?_cons_succ] at hget
          have hmname : m.name ≠ mi.name := hfirst 0 m (Nat.succ_pos i') rfl
          have hmk : String.mk mi.name ≠ String.mk m.name := by
            intro hc
            exact hmname (congrArg String.data hc).symm
          have hseen2 : ((expandReplacer canon sf cf d seen m).2).contains
              (String.mk mi.name) = false := by
            rw [expandReplacer_snd, addSeen_contains_of_ne hmk]
            exact hseen
          have hnext := ih ((expandReplacer canon sf cf d seen m).2) i' mi hget hseen2
            (fun j mj hj hgetj => hfirst (j + 1) mj (Nat.succ_lt_succ hj)
              (by simpa using hgetj))
          have hcong : (expandReplacer canon sf cf d
                ((expandReplacer canon sf cf d seen m).2) mi).1 =
              (expandReplacer canon sf cf d seen mi).1 :=
            expandReplacer_fst_congr canon sf cf d _ _ mi hseen2 hseen
          simp only [expandPieces, List.get?_cons_succ]
          rw [hnext, hcong]

/-- With no state FIPS the URL override is None; a name whose canonical full
body exists somewhere is then returned unchanged by the names_with_full early
return, making the canonical-replacement branch below it dead code. -/
theorem expandReplacer_fst_canonical (canon : List (String × List Char)) (cf : Option String)
    (d : String) (m : CMatch)
    (h : ((canon.lookup (String.mk m.name)).isSome) = true) :
    (expandReplacer canon none cf d [] m).1 = m.whole := by
  unfold expandReplacer
  dsimp only
  simp [pyTruthy, h]
  cases hr : REF_NAME_TO_SOURCE (String.mk m.name) <;> simp [h]

/-- With no state FIPS and no canonical full body anywhere for the name, the
first occurrence is rewritten to a freshly built full ref (or kept unchanged
when the name has no builder). -/
theorem expandReplacer_fst_fresh (canon : List (String × List Char)) (cf : Option String)
    (d : String) (m : CMatch)
    (h : canon.lookup (String.mk m.name) = none) :
    (expandReplacer canon none cf d [] m).1 =
      match build_full_census_ref (String.mk m.name) none cf none d with
      | some fr => fr.data
      | none => m.whole := by
  unfold expandReplacer
  dsimp only
  simp [pyTruthy, h]
  cases hr : REF_NAME_TO_SOURCE (String.mk m.name) <;>
    cases hb : build_full_census_ref (String.mk m.name) none cf none d <;> simp [h, hb]

/-- C4 (amended): expand_first_census_refs rewrites at most the first
occurrence of each named census ref.  Every later occurrence of a name is
returned exactly as matched (never shortened); the first occurrence is
replaced by the replacer's output, which, when no FIPS codes are supplied, is
the match itself whenever some occurrence in the document already carries a
canonical full body (the names_with_full early return — the canonical body is
never installed into the first occurrence, that branch being dead code), and a
freshly built full citation ref only when no canonical body exists
anywhere. -/
theorem C4_expand_first_only (w : String) (sf cf : Option String) (d : String)
    (i : Nat) (mi : CMatch)
    (hi : (censusRefMatches w.data).get? i = some mi) :
    ((∃ j mj, j < i ∧ (censusRefMatches w.data).get? j = some mj ∧ mj.name = mi.name) →
      (expandPieces (canonicalTemplates (censusRefMatches w.data)) sf cf d []
          (censusRefMatches w.data)).get? i = some mi.whole) ∧
    ((∀ j mj, j < i → (censusRefMatches w.data).get? j = some mj → mj.name ≠ mi.name) →
      (expandPieces (canonicalTemplates (censusRefMatches w.data)) sf cf d []
          (censusRefMatches w.data)).get? i =
        some (expandReplacer (canonicalTemplates (censusRefMatches w.data)) sf cf d [] mi).1) ∧
    (((canonicalTemplates (censusRefMatches w.data)).lookup (String.mk mi.name)).isSome = true →
      (expandReplacer (canonicalTemplates (censusRefMatches w.data)) none cf d [] mi).1 =
        mi.whole) ∧
    ((canonicalTemplates (censusRefMatches w.data)).lookup (String.mk mi.name) = none →
      (expandReplacer (canonicalTemplates (censusRefMatches w.data)) none cf d [] mi).1 =
        match build_full_census_ref (String.mk mi.name) none cf none d with
        | some fr => fr.data
        | none => mi.whole) := by
  refine ⟨?_, ?_, ?_, ?_⟩
  · intro ⟨j, mj, hj, hgetj, hname⟩
    exact expandPieces_nonfirst _ sf cf d (censusRefMatches w.data) [] i mi hi
      (Or.inr ⟨j, mj, hj, hgetj, hname⟩)
  · intro hfirst
    exact expandPieces_first _ sf cf d (censusRefMatches w.data) [] i mi hi rfl hfirst
  · exact expandReplacer_fst_canonical _ cf d mi
  · exact expandReplacer_fst_fresh _ cf d mi

set_option maxRecDepth 40000 in
/-- Witness for C4: in a document whose first Census2020DHC occurrence is a
short ref and whose second occurrence carries a canonical full body, the first
occurrence's replacement piece is the short ref itself, unchanged. -/
theorem C4_expand_first_only_witness :
    (expandPieces (canonicalTemplates (censusRefMatches
        "Text <ref name=\"Census2020DHC\"/> more <ref name=\"Census2020DHC\">\x7b\x7bcite web|url=https://api.census.gov/data/2020/dec/dhc?get=X\x7d\x7d</ref>".data))
        none none "July 1, 2025" []
        (censusRefMatches
          "Text <ref name=\"Census2020DHC\"/> more <ref name=\"Census2020DHC\">\x7b\x7bcite web|url=https://api.census.gov/data/2020/dec/dhc?get=X\x7d\x7d</ref>".data)).get? 0 =
      some "<ref name=\"Census2020DHC\"/>".data := by
  have h := C4_expand_first_only
    "Text <ref name=\"Census2020DHC\"/> more <ref name=\"Census2020DHC\">\x7b\x7bcite web|url=https://api.census.gov/data/2020/dec/dhc?get=X\x7d\x7d</ref>"
    none none "July 1, 2025" 0
    { start := 5, stop := 32, name := "Census2020DHC".data, body := none,
      whole := "<ref name=\"Census2020DHC\"/>".data }
    (by rfl)
  exact (h.2.1 (fun j mj hj _ => absurd hj (Nat.not_lt_zero j))).trans
    (congrArg some (h.2.2.1 (by rfl)))

/-- Counterexample for C4 as stated: a document with a non-canonical full
Census2020PL ref followed by a canonical full one is returned completely
unchanged, so two occurrences carry a full citation template and no
occurrence becomes a self-closing short ref. -/
theorem C4_expand_counterexample :
    expand_first_census_refs
        "<ref name=\"Census2020PL\">\x7b\x7bcite web|url=https://x\x7d\x7d</ref> <ref name=\"Census2020PL\">\x7b\x7bcite web|url=https://x?a=b\x7d\x7d</ref>"
        none none "July 1, 2025" =
      "<ref name=\"Census2020PL\">\x7b\x7bcite web|url=https://x\x7d\x7d</ref> <ref name=\"Census2020PL\">\x7b\x7bcite web|url=https://x?a=b\x7d\x7d</ref>" ∧
    countSubOcc
      "<ref name=\"Census2020PL\">\x7b\x7bcite web|url=https://x\x7d\x7d</ref> <ref name=\"Census2020PL\">\x7b\x7bcite web|url=https://x?a=b\x7d\x7d</ref>".data
      "<ref name=\"Census2020PL\">".data = 2 ∧
    countSubOcc
      "<ref name=\"Census2020PL\">\x7b\x7bcite web|url=https://x\x7d\x7d</ref> <ref name=\"Census2020PL\">\x7b\x7bcite web|url=https://x?a=b\x7d\x7d</ref>".data
      "<ref name=\"Census2020PL\"/>".data = 0 :=
  ⟨by rfl, by rfl, by rfl⟩

/-- C5 (amended): fix_demographics_section_in_article runs only the
normalization pipeline (fix_demographics_section_wikitext) over the serialized
Demographics section; it accepts no FIPS codes and never invokes
expand_first_census_refs, so when the pipeline leaves the section text
unchanged the article is returned unchanged, with its existing citation URLs
(including stale ones) intact.  When no Demographics section exists, the
article is likewise returned unchanged. -/
theorem C5_patcher_pipeline_only (article : String) (orig : Option String) :
    (findDemographicsIdx (parse_wikitext article) = none →
      fix_demographics_section_in_article article orig = .ok article) ∧
    (∀ (i : Nat) (entry : Sect) (st : String),
      findDemographicsIdx (parse_wikitext article) = some (i, entry) →
      to_wikitext [entry] = some st →
      fix_demographics_section_wikitext st orig = st →
      fix_demographics_section_in_article article orig = .ok article) := by
  constructor
  · intro h
    unfold fix_demographics_section_in_article
    dsimp only
    rw [h]
  · intro i entry st hfind hser hfix
    unfold fix_demographics_section_in_article
    dsimp only
    rw [hfind]
    dsimp only
    rw [hser]
    dsimp only
    simp [hfix]

set_option maxRecDepth 20000 in
/-- Witness for C5 at an article whose Demographics section holds a stale
deep-link PL citation that the pipeline does not touch: the patched article is
the input itself, URL included. -/
theorem C5_patcher_pipeline_only_witness :
    fix_demographics_section_in_article
        "==Demographics==\nAs of the census,<ref name=\"Census2020PL\">\x7b\x7bcite web|url=https://api.census.gov/data/2020/dec/pl?get=OLD\x7d\x7d</ref> data.\n"
        none =
      .ok "==Demographics==\nAs of the census,<ref name=\"Census2020PL\">\x7b\x7bcite web|url=https://api.census.gov/data/2020/dec/pl?get=OLD\x7d\x7d</ref> data.\n" :=
  (C5_patcher_pipeline_only
      "==Demographics==\nAs of the census,<ref name=\"Census2020PL\">\x7b\x7bcite web|url=https://api.census.gov/data/2020/dec/pl?get=OLD\x7d\x7d</ref> data.\n"
      none).2 0
    (Sect.leaf "Demographics"
      "As of the census,<ref name=\"Census2020PL\">\x7b\x7bcite web|url=https://api.census.gov/data/2020/dec/pl?get=OLD\x7d\x7d</ref> data.\n")
    "==Demographics==\nAs of the census,<ref name=\"Census2020PL\">\x7b\x7bcite web|url=https://api.census.gov/data/2020/dec/pl?get=OLD\x7d\x7d</ref> data.\n"
    (by rfl) (by rfl) (by rfl)

/-- Counterexample for C5 as stated: the Section Patcher does not thread
expand_first_census_refs over the pipeline result (its signature has no FIPS
parameters at all).  On an article whose Demographics section holds a single
short Census2020PL ref, the patcher returns the article unchanged, while
expand_first_census_refs would have rewritten it (it expands the first
occurrence to a full citation), so the patcher's output cannot be the result
of threading that function. -/
theorem C5_patcher_counterexample :
    fix_demographics_section_in_article
        "==Demographics==\nText<ref name=\"Census2020PL\"/> more.\n" none =
      .ok "==Demographics==\nText<ref name=\"Census2020PL\"/> more.\n" ∧
    expand_first_census_refs "==Demographics==\nText<ref name=\"Census2020PL\"/> more.\n"
        none none "July 1, 2025" ≠
      "==Demographics==\nText<ref name=\"Census2020PL\"/> more.\n" :=
  ⟨by rfl, by decide⟩

/-- Witness for C10: a two-segment path whose first segment is a leaf, and the
empty path, both raise the ValueError kind. -/
theorem C10_beyond_leaf_value_error_witness :
    (get_section [Sect.leaf "History" "old"] ["History", "Deep"] =
        .error (.valueError ("Section path History > Deep extends beyond available headings.")) ∧
      overwrite_section [Sect.leaf "History" "old"] ["History", "Deep"] "x" =
        .error (.valueError ("Section path History > Deep extends beyond available headings."))) ∧
    (get_section [Sect.leaf "History" "old"] [] =
        .error (.valueError ("key_path must identify a section.")) ∧
      overwrite_section [Sect.leaf "History" "old"] [] "x" =
        .error (.valueError ("key_path must identify a section."))) :=
  C10_beyond_leaf_value_error [Sect.leaf "History" "old"] ["History"] "Deep" [] "old" "x" (by rfl)

end WikiCensus
